import Mathlib

/-!
# Verification of R-JSONEventParser

A shallow embedding of the streaming JSON event parser
(`byte_source.rs`, `json_lexer.rs`, `json_parser.rs`, `json2xml.rs`)
together with proofs about the claims of its specification.

Bytes are modelled as `Nat` (values < 256 in any real input), buffers as
`List Nat`, Rust `String`s as Lean `String`s, and `Result<T, E>` as
`Except E T`.  Consumers are modelled by collecting the emitted events in
a list; a consumer abort only short-circuits delivery downstream and
never influences the state evolution of the producers, so the collected
list is the sequence a never-aborting consumer receives.
-/

namespace RJson

/-- Plain text alias used where the Rust code stores a `String`. -/
abbrev Text := String

/-- `LexerToken` of `json_lexer.rs`. -/
inductive LexerToken where
  | BeginObject
  | EndObject
  | BeginArray
  | EndArray
  | NameSeparator
  | ValueSeparator
  | BooleanValue (b : Bool)
  | NullValue
  | String (s : Text)
  | IntValue (s : Text)
  | FloatValue (s : Text)
  | BeginFile
  | EndFile
deriving DecidableEq

/-- `JSONLexError` of `json_lexer.rs`: message plus position. -/
structure JSONLexError where
  msg : Text
  line : Nat
  column : Nat
deriving DecidableEq

/-- One call to `JSONLexConsumer::consume`: the `Result` argument together
with the `line`/`column` arguments. -/
instance {ε α : Type} [DecidableEq ε] [DecidableEq α] : DecidableEq (Except ε α) := fun a b =>
  match a, b with
  | .ok x, .ok y => if h : x = y then .isTrue (by rw [h]) else .isFalse (by simp [h])
  | .error x, .error y => if h : x = y then .isTrue (by rw [h]) else .isFalse (by simp [h])
  | .ok _, .error _ => .isFalse (by simp)
  | .error _, .ok _ => .isFalse (by simp)

structure LexEmit where
  res : Except JSONLexError LexerToken
  line : Nat
  column : Nat
deriving DecidableEq

/-- `LexerState` of `json_lexer.rs`. -/
inductive LexerState where
  | None
  | Expect (t : LexerToken)
  | Number
  | String
deriving DecidableEq

/-- `LexerNumberSubState` of `json_lexer.rs`. -/
inductive LexerNumberSubState where
  | None
  | NegNumberStart
  | ZeroNumberStart
  | OtherNumber
  | NumberFracStart
  | NumberFrac
  | NumberFracExpStart
  | NumberFracExp
  | NumberFracExpMinusStart
  | NumberFracExpMinus
deriving DecidableEq

/-- `LexerStringSubState` of `json_lexer.rs`. -/
inductive LexerStringSubState where
  | None
  | Escape
  | Unicode
deriving DecidableEq

/-! ## UTF-8

`String::from_utf8` (strict validation) and `char::encode_utf8`,
used by the lexer when it closes a scalar and when it appends a decoded
`\uXXXX` code point to the string buffer. -/

/-- Is `b` a UTF-8 continuation byte (`0x80..=0xBF`)? -/
def isCont (b : Nat) : Bool := 0x80 ≤ b && b ≤ 0xBF

/-- One step of strict UTF-8 decoding.  The `Nat` argument is fuel,
instantiated with the list length (each step consumes at least one byte
and one unit of fuel, so the `none`-on-exhaustion case is never reached
from `utf8Decode?`); it only makes the recursion structural. -/
def utf8DecodeGo : Nat → List Nat → Option (List Char)
  | _, [] => some []
  | 0, _ :: _ => none
  | n + 1, b1 :: t1 =>
    if b1 < 0x80 then
      (utf8DecodeGo n t1).map (fun cs => Char.ofNat b1 :: cs)
    else if 0xC2 ≤ b1 && b1 ≤ 0xDF then
      match t1 with
      | b2 :: t2 =>
        if isCont b2 then
          (utf8DecodeGo n t2).map (fun cs => Char.ofNat ((b1 - 0xC0) * 0x40 + (b2 - 0x80)) :: cs)
        else none
      | [] => none
    else if 0xE0 ≤ b1 && b1 ≤ 0xEF then
      match t1 with
      | b2 :: b3 :: t3 =>
        let cp := (b1 - 0xE0) * 0x1000 + (b2 - 0x80) * 0x40 + (b3 - 0x80)
        if isCont b2 && isCont b3 && 0x800 ≤ cp && ¬(0xD800 ≤ cp && cp ≤ 0xDFFF) then
          (utf8DecodeGo n t3).map (fun cs => Char.ofNat cp :: cs)
        else none
      | _ => none
    else if 0xF0 ≤ b1 && b1 ≤ 0xF4 then
      match t1 with
      | b2 :: b3 :: b4 :: t4 =>
        let cp := (b1 - 0xF0) * 0x40000 + (b2 - 0x80) * 0x1000 + (b3 - 0x80) * 0x40 + (b4 - 0x80)
        if isCont b2 && isCont b3 && isCont b4 && 0x10000 ≤ cp && cp ≤ 0x10FFFF then
          (utf8DecodeGo n t4).map (fun cs => Char.ofNat cp :: cs)
        else none
      | _ => none
    else none

/-- Strict UTF-8 decoding of a byte list, mirroring Rust
`String::from_utf8` (rejects overlong forms, surrogates and
out-of-range code points). -/
def utf8Decode? (l : List Nat) : Option (List Char) :=
  utf8DecodeGo l.length l

/-- `char::encode_utf8` on a Unicode scalar value given as `Nat`. -/
def utf8EncodeNat (n : Nat) : List Nat :=
  if n < 0x80 then [n]
  else if n < 0x800 then [0xC0 + n / 0x40, 0x80 + n % 0x40]
  else if n < 0x10000 then
    [0xE0 + n / 0x1000, 0x80 + n / 0x40 % 0x40, 0x80 + n % 0x40]
  else
    [0xF0 + n / 0x40000, 0x80 + n / 0x1000 % 0x40, 0x80 + n / 0x40 % 0x40, 0x80 + n % 0x40]

/-- `char::from_u32` succeeds exactly on Unicode scalar values. -/
def isValidScalar (n : Nat) : Bool :=
  n < 0x110000 && ¬(0xD800 ≤ n && n ≤ 0xDFFF)

/-- An apostrophe as a string (used to build message texts). -/
def apos : Text := String.mk [Char.ofNat 39]

/-- The `Display` text of Rust `FromUtf8Error`.  Abstracted: no claim
inspects this message, only the fact that the scalar is discarded. -/
def fromUtf8ErrText (l : List Nat) : Text :=
  "invalid utf-8 sequence (" ++ toString l.length ++ " bytes)"

/-- Message of the `Can`'`t decode string` lexical error. -/
def cantDecodeMsg (l : List Nat) : Text :=
  "Can" ++ apos ++ "t decode string `" ++ fromUtf8ErrText l ++ "`"

/-- A one-character string from a byte, mirroring Rust `byte as char`
interpolated with `{}`. -/
def byteChar (b : Nat) : Text := String.mk [Char.ofNat b]

/-! ## The lexer (`json_lexer.rs`) -/

/-- The mutable state of `JSONLexer::lex`: the struct fields `line`,
`column`, `ignore_unicode_errs` plus all local variables of `lex` that
survive a loop iteration. -/
structure LexState where
  state : LexerState
  expect : List Nat
  expected_index : Nat
  number_sub_state : LexerNumberSubState
  string_sub_state : LexerStringSubState
  buf : List Nat
  code_point : Nat
  unicode_index : Nat
  high : Nat
  line : Nat
  column : Nat
  ignore_unicode_errs : Bool
deriving DecidableEq

/-- Result of one loop iteration of `lex`: the `consume` calls it makes,
the successor state, and whether it pushed the byte back
(`byte_source.unget()`). -/
structure StepOut where
  events : List LexEmit
  st : LexState
  unget : Bool
deriving DecidableEq

/-- An `Ok(token)` emission at the current position. -/
def mkOk (s : LexState) (t : LexerToken) : LexEmit :=
  ⟨.ok t, s.line, s.column⟩

/-- A `consume_lex_error!` emission at the current position. -/
def mkErr (s : LexState) (m : Text) : LexEmit :=
  ⟨.error ⟨m, s.line, s.column⟩, s.line, s.column⟩

/-- The `end_of_number!` macro: clear the buffer and return to top-level
mode (the accompanying `unget` is signalled by the caller). -/
def endOfNumber (s : LexState) : LexState :=
  {s with buf := [], number_sub_state := .None, state := .None}

/-- The `consume_buf!` macro: decode the buffer and emit the token built
by `mk`, or the `Can`'`t decode string` error. -/
def consumeBuf (s : LexState) (mk : Text → LexerToken) : LexEmit :=
  match utf8Decode? s.buf with
  | some cs => ⟨.ok (mk (String.mk cs)), s.line, s.column⟩
  | none => mkErr s (cantDecodeMsg s.buf)

/-- The `try_to_append_code_point!` macro: events emitted and the new
buffer. -/
def tryAppend (s : LexState) (buf : List Nat) (cp : Nat) : List LexEmit × List Nat :=
  if isValidScalar cp then ([], buf ++ utf8EncodeNat cp)
  else if s.ignore_unicode_errs then ([], buf ++ utf8EncodeNat 0xFFFD)
  else ([mkErr s ("This is not a code point `" ++ toString cp ++ "`")], buf)

/-- `JSONLexer::parse_hex`. -/
def parseHex (s : LexState) (b : Nat) : Except JSONLexError Nat :=
  if 48 ≤ b && b ≤ 57 then .ok (b - 48)
  else if 97 ≤ b && b ≤ 102 then .ok (b - 97 + 10)
  else if 65 ≤ b && b ≤ 70 then .ok (b - 65 + 10)
  else .error ⟨"Unknown hex digit `" ++ byteChar b ++ "`", s.line, s.column⟩

/-- Top-level dispatch: the `LexerState::None` arm of `lex`. -/
def stepNone (s : LexState) (b : Nat) : StepOut :=
  if b = 32 ∨ b = 9 ∨ b = 13 then ⟨[], s, false⟩
  else if b = 102 then
    ⟨[], {s with expect := [97, 108, 115, 101], state := .Expect (.BooleanValue false), expected_index := 0}, false⟩
  else if b = 116 then
    ⟨[], {s with expect := [0, 114, 117, 101], state := .Expect (.BooleanValue true), expected_index := 1}, false⟩
  else if b = 110 then
    ⟨[], {s with expect := [0, 117, 108, 108], state := .Expect .NullValue, expected_index := 1}, false⟩
  else if b = 123 then ⟨[mkOk s .BeginObject], s, false⟩
  else if b = 125 then ⟨[mkOk s .EndObject], s, false⟩
  else if b = 91 then ⟨[mkOk s .BeginArray], s, false⟩
  else if b = 93 then ⟨[mkOk s .EndArray], s, false⟩
  else if b = 58 then ⟨[mkOk s .NameSeparator], s, false⟩
  else if b = 44 then ⟨[mkOk s .ValueSeparator], s, false⟩
  else if b = 45 then
    ⟨[], {s with state := .Number, number_sub_state := .NegNumberStart, buf := [45]}, false⟩
  else if b = 48 then
    ⟨[], {s with state := .Number, number_sub_state := .ZeroNumberStart, buf := [48]}, false⟩
  else if b = 34 then
    ⟨[], {s with state := .String, string_sub_state := .None, buf := []}, false⟩
  else if 49 ≤ b ∧ b ≤ 57 then
    ⟨[], {s with state := .Number, number_sub_state := .OtherNumber, buf := [b]}, false⟩
  else ⟨[mkErr s ("Unexpected char `" ++ byteChar b ++ "`")], s, false⟩

/-- The `LexerState::Expect` arms of `lex` (keyword literals). -/
def stepExpect (s : LexState) (t : LexerToken) (b : Nat) : StepOut :=
  if s.expected_index < s.expect.length then
    if s.expect.getD s.expected_index 0 = b then
      ⟨[], {s with expected_index := s.expected_index + 1}, false⟩
    else
      ⟨[mkErr s ("Expected word `" ++ String.mk ((utf8Decode? s.expect).getD []) ++ "`")],
        {s with state := .None}, false⟩
  else if s.expected_index = s.expect.length then
    ⟨[mkOk s t], {s with expected_index := 0, state := .None}, true⟩
  else ⟨[], s, false⟩

/-- The `LexerState::Number` arm of `lex` (number sub-grammar). -/
def stepNumber (s : LexState) (b : Nat) : StepOut :=
  match s.number_sub_state with
  | .NegNumberStart =>
    if b = 48 then
      ⟨[], {s with buf := s.buf ++ [48], number_sub_state := .ZeroNumberStart}, false⟩
    else if 49 ≤ b ∧ b ≤ 57 then
      ⟨[], {s with buf := s.buf ++ [b], number_sub_state := .OtherNumber}, false⟩
    else
      ⟨[mkErr s ("Expected a digit `" ++ byteChar b ++ "`")], endOfNumber s, true⟩
  | .ZeroNumberStart =>
    if b = 46 then
      ⟨[], {s with buf := s.buf ++ [46], number_sub_state := .NumberFracStart}, false⟩
    else if b = 101 ∨ b = 69 then
      ⟨[], {s with buf := s.buf ++ [101], number_sub_state := .NumberFracExpStart}, false⟩
    else
      ⟨[mkOk s (.IntValue "0")], endOfNumber s, true⟩
  | .OtherNumber =>
    if b = 46 then
      ⟨[], {s with buf := s.buf ++ [46], number_sub_state := .NumberFracStart}, false⟩
    else if b = 101 ∨ b = 69 then
      ⟨[], {s with buf := s.buf ++ [101], number_sub_state := .NumberFracExpStart}, false⟩
    else if 48 ≤ b ∧ b ≤ 57 then
      ⟨[], {s with buf := s.buf ++ [b]}, false⟩
    else
      ⟨[consumeBuf s .IntValue], endOfNumber s, true⟩
  | .NumberFracStart =>
    if 48 ≤ b ∧ b ≤ 57 then
      ⟨[], {s with buf := s.buf ++ [b], number_sub_state := .NumberFrac}, false⟩
    else
      ⟨[mkErr s ("Missing decimals `" ++ String.mk ((utf8Decode? s.buf).getD []) ++ "`")],
        endOfNumber s, true⟩
  | .NumberFrac =>
    if b = 101 ∨ b = 69 then
      ⟨[], {s with buf := s.buf ++ [101], number_sub_state := .NumberFracExpStart}, false⟩
    else if 48 ≤ b ∧ b ≤ 57 then
      ⟨[], {s with buf := s.buf ++ [b]}, false⟩
    else
      ⟨[consumeBuf s .FloatValue], endOfNumber s, true⟩
  | .NumberFracExpStart =>
    if b = 45 then
      ⟨[], {s with buf := s.buf ++ [45], number_sub_state := .NumberFracExpMinusStart}, false⟩
    else if 48 ≤ b ∧ b ≤ 57 then
      ⟨[], {s with buf := s.buf ++ [b], number_sub_state := .NumberFracExp}, false⟩
    else
      ⟨[mkErr s ("Missing exp `" ++ String.mk ((utf8Decode? s.buf).getD []) ++ "`")],
        endOfNumber s, true⟩
  | .NumberFracExp =>
    if 48 ≤ b ∧ b ≤ 57 then
      ⟨[], {s with buf := s.buf ++ [b], number_sub_state := .NumberFracExp}, false⟩
    else
      ⟨[consumeBuf s .FloatValue], endOfNumber s, true⟩
  | .NumberFracExpMinusStart =>
    if 48 ≤ b ∧ b ≤ 57 then
      ⟨[], {s with buf := s.buf ++ [b], number_sub_state := .NumberFracExpMinus}, false⟩
    else
      ⟨[mkErr s ("Missing exp `" ++ String.mk ((utf8Decode? s.buf).getD []) ++ "`")],
        endOfNumber s, true⟩
  | .NumberFracExpMinus =>
    if 48 ≤ b ∧ b ≤ 57 then
      ⟨[], {s with buf := s.buf ++ [b]}, false⟩
    else
      ⟨[consumeBuf s .FloatValue], endOfNumber s, true⟩
  | .None =>
    -- the source panics here; the sub-state is never `None` while the
    -- state is `Number` (the two change together), so this arm is dead
    ⟨[], s, false⟩

/-- The hex-accumulation step shared by both `Unicode` arms (the
`if unicode_index <= 3` block): successor state and emitted events. -/
def hexStep (s : LexState) (b : Nat) : LexState × List LexEmit :=
  if s.unicode_index ≤ 3 then
    match parseHex s b with
    | .ok i =>
      ({s with code_point := s.code_point * 16 + i, unicode_index := s.unicode_index + 1}, [])
    | .error e =>
      ({s with code_point := 0, unicode_index := 0, string_sub_state := .None},
        [⟨.error e, s.line, s.column⟩])
  else (s, [])

/-- The `if unicode_index == 4` block of the `Unicode` arm with
`high == 0`, applied to the state after `hexStep`. -/
def unicodeEnd (s1 : LexState) (evs : List LexEmit) : StepOut :=
  if s1.unicode_index = 4 then
    if 0xD800 ≤ s1.code_point ∧ s1.code_point ≤ 0xDBFF then
      ⟨evs, {s1 with high := s1.code_point, code_point := 0, unicode_index := 0, string_sub_state := .None}, false⟩
    else
      ⟨evs ++ (tryAppend s1 s1.buf s1.code_point).1, {s1 with buf := (tryAppend s1 s1.buf s1.code_point).2, code_point := 0, unicode_index := 0, string_sub_state := .None}, false⟩
  else ⟨evs, s1, false⟩

/-- The `LexerStringSubState::Unicode` arm with `high == 0`. -/
def stepStringUnicode (s : LexState) (b : Nat) : StepOut :=
  unicodeEnd (hexStep s b).1 (hexStep s b).2

/-- The `if unicode_index == 4` block of the `Unicode` arm with
`high != 0` (low half of a surrogate pair), applied to the state after
`hexStep`. -/
def unicodeHighEnd (s1 : LexState) (evs : List LexEmit) : StepOut :=
  if s1.unicode_index = 4 then
    if 0xDC00 ≤ s1.code_point ∧ s1.code_point ≤ 0xDFFF then
      ⟨evs ++ (tryAppend s1 s1.buf (0x10000 + (s1.high - 0xD800) * 0x400 + s1.code_point - 0xDC00)).1, {s1 with buf := (tryAppend s1 s1.buf (0x10000 + (s1.high - 0xD800) * 0x400 + s1.code_point - 0xDC00)).2, high := 0, code_point := 0, unicode_index := 0, string_sub_state := .None}, false⟩
    else
      ⟨evs ++ [mkErr s1 ("Waiting for low surrogate, got `" ++ toString s1.code_point ++ "`")], {s1 with buf := s1.buf ++ utf8EncodeNat 0xFFFD, high := 0, code_point := 0, unicode_index := 0, string_sub_state := .None}, false⟩
  else ⟨evs, s1, false⟩

/-- The `LexerStringSubState::Unicode` arm with `high != 0` (awaiting the
low half of a surrogate pair). -/
def stepStringUnicodeHigh (s : LexState) (b : Nat) : StepOut :=
  unicodeHighEnd (hexStep s b).1 (hexStep s b).2

/-- The `LexerState::String` arm of `lex`. -/
def stepString (s : LexState) (b : Nat) : StepOut :=
  if s.high = 0 then
    match s.string_sub_state with
    | .Escape =>
      if b = 34 ∨ b = 92 then
        ⟨[], {s with buf := s.buf ++ [b], string_sub_state := .None}, false⟩
      else if b = 98 then
        ⟨[], {s with buf := s.buf ++ [8], string_sub_state := .None}, false⟩
      else if b = 102 then
        ⟨[], {s with buf := s.buf ++ [12], string_sub_state := .None}, false⟩
      else if b = 110 then
        ⟨[], {s with buf := s.buf ++ [10], string_sub_state := .None}, false⟩
      else if b = 114 then
        ⟨[], {s with buf := s.buf ++ [13], string_sub_state := .None}, false⟩
      else if b = 116 then
        ⟨[], {s with buf := s.buf ++ [9], string_sub_state := .None}, false⟩
      else if b = 117 then
        ⟨[], {s with string_sub_state := .Unicode, code_point := 0, unicode_index := 0}, false⟩
      else
        ⟨[mkErr s ("Unknown escaped char `" ++ byteChar b ++ "`")], s, false⟩
    | .Unicode => stepStringUnicode s b
    | .None =>
      if b = 92 then ⟨[], {s with string_sub_state := .Escape}, false⟩
      else if b = 34 then
        ⟨[consumeBuf s .String],
          {s with buf := [], string_sub_state := .None, state := .None}, false⟩
      else ⟨[], {s with buf := s.buf ++ [b]}, false⟩
  else
    match s.string_sub_state with
    | .Escape =>
      if b = 117 then
        ⟨[], {s with string_sub_state := .Unicode, code_point := 0, unicode_index := 0}, false⟩
      else
        ⟨[mkErr s ("Waiting for low surrogate: needs \\u, got `\\" ++ byteChar b ++ "`")],
          {s with high := 0}, true⟩
    | .Unicode => stepStringUnicodeHigh s b
    | .None =>
      if b = 92 then ⟨[], {s with string_sub_state := .Escape}, false⟩
      else
        ⟨[mkErr s ("Waiting for low surrogate: needs backslash, got `" ++ byteChar b ++ "`")],
          {s with high := 0}, true⟩

/-- One iteration of the `while let Some(byte)` loop of `lex`: the column
advances, a line feed only advances the line, any other byte feeds the
state machine. -/
def lexStep (s0 : LexState) (b : Nat) : StepOut :=
  let s := {s0 with column := s0.column + 1}
  if b = 10 then ⟨[], {s with line := s.line + 1}, false⟩
  else
    match s.state with
    | .None => stepNone s b
    | .Expect t => stepExpect s t b
    | .Number => stepNumber s b
    | .String => stepString s b

/-- End-of-stream finalisation of `lex` (the `match state` after the
loop). -/
def lexFinalize (s : LexState) : List LexEmit :=
  match s.state with
  | .Number =>
    match s.number_sub_state with
    | .ZeroNumberStart => [mkOk s (.IntValue "0")]
    | .NegNumberStart =>
      [mkErr s ("Missing digits `" ++ String.mk ((utf8Decode? s.buf).getD []) ++ "`")]
    | .OtherNumber => [consumeBuf s .IntValue]
    | .NumberFracStart =>
      [mkErr s ("Missing decimals `" ++ String.mk ((utf8Decode? s.buf).getD []) ++ "`")]
    | .NumberFrac => [consumeBuf s .FloatValue]
    | .NumberFracExpStart =>
      [mkErr s ("Missing exp `" ++ String.mk ((utf8Decode? s.buf).getD []) ++ "`")]
    | .NumberFracExp => [consumeBuf s .FloatValue]
    | .NumberFracExpMinusStart =>
      [mkErr s ("Missing exp `" ++ String.mk ((utf8Decode? s.buf).getD []) ++ "`")]
    | .NumberFracExpMinus => [consumeBuf s .FloatValue]
    | .None => [mkErr s "Unexpected sub_state"]
  | .String =>
    match utf8Decode? s.buf with
    | some cs => [mkErr s ("Unfinished string `" ++ String.mk cs ++ "`")]
    | none => [mkErr s (cantDecodeMsg s.buf)]
  | .None => []
  | .Expect _ => [mkErr s "Unexpected sub_state"]

/-- The loop of `lex` over the byte stream.  `unget` pushes the byte just
read back into the source, so the very next `get` re-delivers it: the
driver re-runs the step on the same byte.  `lexStep_unget_then_no_unget`
below proves that a state produced by an un-getting step never un-gets
again on the next byte, so this driver is exactly the source's loop. -/
def lexRun (s : LexState) : List Nat → List LexEmit × LexState
  | [] => ([], s)
  | b :: rest =>
    let r1 := lexStep s b
    if r1.unget then
      let r2 := lexStep r1.st b
      let r3 := lexRun r2.st rest
      (r1.events ++ (r2.events ++ r3.1), r3.2)
    else
      let r3 := lexRun r1.st rest
      (r1.events ++ r3.1, r3.2)

/-- The local-variable initialisation at the top of `lex` together with a
fresh `JSONLexer::new`. -/
def initLexState (ign : Bool) : LexState :=
  ⟨.None, [1, 2, 3, 4], 0, .None, .None, [], 0, 0, 0, 0, 0, ign⟩

/-- `JSONLexer::lex` over a byte stream, collecting every `consume` call
of a consumer that never aborts: `Ok(BeginFile)`, the loop, the
finalisation, `Ok(EndFile)`. -/
def lex (input : List Nat) (ign : Bool) : List LexEmit :=
  mkOk (initLexState ign) .BeginFile ::
    ((lexRun (initLexState ign) input).1 ++
      (lexFinalize (lexRun (initLexState ign) input).2 ++
        [mkOk (lexRun (initLexState ign) input).2 .EndFile]))

/-! ## The parser adapter (`json_parser.rs`) -/

/-- `ParserToken` of `json_parser.rs`. -/
inductive ParserToken where
  | BeginFile
  | EndFile
  | BeginObject
  | EndObject
  | BeginArray
  | EndArray
  | Key (s : Text)
  | BooleanValue (b : Bool)
  | NullValue
  | StringValue (s : Text)
  | IntValue (s : Text)
  | FloatValue (s : Text)
deriving DecidableEq

/-- `JSONParseError` of `json_parser.rs`. -/
structure JSONParseError where
  msg : Text
  line : Nat
  column : Nat
deriving DecidableEq

/-- `ParserState` of `json_parser.rs`. -/
inductive ParserState where
  | Undefined
  | None
  | InObject
  | InObjectMember
  | InObjectMemberValue
  | InObjectSep
  | InArray
  | InArraySep
deriving DecidableEq

/-- One call to `JSONParseConsumer::consume`. -/
abbrev PEvent := Except JSONParseError ParserToken

/-- The `derive(Debug)` rendering of a `ParserState`. -/
def psDebug : ParserState → Text
  | .Undefined => "Undefined"
  | .None => "None"
  | .InObject => "InObject"
  | .InObjectMember => "InObjectMember"
  | .InObjectMemberValue => "InObjectMemberValue"
  | .InObjectSep => "InObjectSep"
  | .InArray => "InArray"
  | .InArraySep => "InArraySep"

/-- `char::escape_debug` of one character, as used by the `derive(Debug)`
rendering of a Rust `String`.  (For non-printable characters other than
the common escapes Rust consults Unicode tables; those all render as a
`\u` escape here, which is the shape Rust produces for them.) -/
def escDebugChar (c : Char) : Text :=
  if c = Char.ofNat 34 then "\\" ++ String.mk [Char.ofNat 34]
  else if c = Char.ofNat 92 then "\\\\"
  else if c = Char.ofNat 10 then "\\n"
  else if c = Char.ofNat 13 then "\\r"
  else if c = Char.ofNat 9 then "\\t"
  else if c.toNat < 32 ∨ c.toNat = 127 then
    "\\u\x7b" ++ (Nat.toDigits 16 c.toNat).asString ++ "\x7d"
  else String.mk [c]

/-- The `derive(Debug)` rendering of a Rust `String`. -/
def strDebug (s : Text) : Text :=
  String.mk [Char.ofNat 34] ++ String.join (s.data.map escDebugChar) ++ String.mk [Char.ofNat 34]

/-- The `derive(Debug)` rendering of a `LexerToken`. -/
def lexerTokenDebug : LexerToken → Text
  | .BeginObject => "BeginObject"
  | .EndObject => "EndObject"
  | .BeginArray => "BeginArray"
  | .EndArray => "EndArray"
  | .NameSeparator => "NameSeparator"
  | .ValueSeparator => "ValueSeparator"
  | .BooleanValue b => "BooleanValue(" ++ (if b then "true" else "false") ++ ")"
  | .NullValue => "NullValue"
  | .String s => "String(" ++ strDebug s ++ ")"
  | .IntValue s => "IntValue(" ++ strDebug s ++ ")"
  | .FloatValue s => "FloatValue(" ++ strDebug s ++ ")"
  | .BeginFile => "BeginFile"
  | .EndFile => "EndFile"

/-- The `derive(Debug)` rendering of the `Result<LexerToken, JSONLexError>`
caught by the catch-all `t` arms (always an `Ok` there, the `Err` case
having returned earlier). -/
def lexResultDebug : Except JSONLexError LexerToken → Text
  | .ok t => "Ok(" ++ lexerTokenDebug t ++ ")"
  | .error e =>
    "Err(JSONLexError \x7b msg: " ++ strDebug e.msg ++ ", line: " ++ toString e.line ++
      ", column: " ++ toString e.column ++ " \x7d)"

/-- The state of a `JSONLexerToParser`: current state and the stack of
states to resume.  The head of `states` is the top of the Rust `Vec`
(its `last()`/`push`/`pop` end). -/
structure ParserSt where
  state : ParserState
  states : List ParserState
deriving DecidableEq

/-- Result of one `JSONLexerToParser::consume` call: the events pushed to
the user consumer, the successor state, whether the call returned
`Err(ConsumeError)`, and whether it panicked (`pop().unwrap()` on an
empty stack). -/
structure POut where
  events : List PEvent
  st : ParserSt
  abort : Bool
  panic : Bool
deriving DecidableEq

/-- The `parse_error!` macro. -/
def parseErr (m : Text) (line column : Nat) : PEvent :=
  .error ⟨m, line, column⟩

/-- `JSONLexerToParser::consume`. -/
def pconsume (ps : ParserSt) (tok : Except JSONLexError LexerToken) (line column : Nat) : POut :=
  match tok with
  | .error e => ⟨[.error ⟨e.msg, e.line, e.column⟩], ps, true, false⟩
  | .ok t =>
    match ps.state with
    | .Undefined =>
      match t with
      | .BeginFile => ⟨[.ok .BeginFile], {ps with state := .None}, false, false⟩
      | _ => ⟨[parseErr "Unexpected state" line column], ps, false, false⟩
    | .None =>
      match t with
      | .EndFile =>
        match ps.states.head? with
        | some t' => ⟨[parseErr ("Should be closed: " ++ psDebug t') line column], ps, false, false⟩
        | none => ⟨[.ok .EndFile], ps, false, false⟩
      | .BeginObject =>
        ⟨[.ok .BeginObject], ⟨.InObject, .None :: ps.states⟩, false, false⟩
      | .BeginArray =>
        ⟨[.ok .BeginArray], ⟨.InArray, .None :: ps.states⟩, false, false⟩
      | .BooleanValue b => ⟨[.ok (.BooleanValue b)], ps, false, false⟩
      | .NullValue => ⟨[.ok .NullValue], ps, false, false⟩
      | .IntValue s => ⟨[.ok (.IntValue s)], ps, false, false⟩
      | .FloatValue s => ⟨[.ok (.FloatValue s)], ps, false, false⟩
      | .String s => ⟨[.ok (.StringValue s)], ps, false, false⟩
      | _ => ⟨[parseErr ("Unexpected token `" ++ lexResultDebug (.ok t) ++ "`") line column],
              ps, false, false⟩
    | .InObject =>
      match t with
      | .EndObject =>
        match ps.states with
        | t' :: rest => ⟨[.ok .EndObject], ⟨t', rest⟩, false, false⟩
        | [] => ⟨[], ps, false, true⟩
      | .String s => ⟨[.ok (.Key s)], {ps with state := .InObjectMember}, false, false⟩
      | _ => ⟨[parseErr ("Unexpected token `" ++ lexResultDebug (.ok t) ++ "`") line column],
              ps, false, false⟩
    | .InObjectMember =>
      match t with
      | .NameSeparator => ⟨[], {ps with state := .InObjectMemberValue}, false, false⟩
      | _ => ⟨[parseErr ("Unexpected token `" ++ lexResultDebug (.ok t) ++ "`") line column],
              ps, false, false⟩
    | .InObjectMemberValue =>
      match t with
      | .BooleanValue b => ⟨[.ok (.BooleanValue b)], {ps with state := .InObjectSep}, false, false⟩
      | .NullValue => ⟨[.ok .NullValue], {ps with state := .InObjectSep}, false, false⟩
      | .IntValue s => ⟨[.ok (.IntValue s)], {ps with state := .InObjectSep}, false, false⟩
      | .FloatValue s => ⟨[.ok (.FloatValue s)], {ps with state := .InObjectSep}, false, false⟩
      | .String s => ⟨[.ok (.StringValue s)], {ps with state := .InObjectSep}, false, false⟩
      | .BeginObject =>
        ⟨[.ok .BeginObject], ⟨.InObject, .InObjectSep :: ps.states⟩, false, false⟩
      | .BeginArray =>
        ⟨[.ok .BeginArray], ⟨.InArray, .InObjectSep :: ps.states⟩, false, false⟩
      | _ => ⟨[parseErr ("Unexpected token `" ++ lexResultDebug (.ok t) ++ "`") line column],
              ps, false, false⟩
    | .InObjectSep =>
      match t with
      | .ValueSeparator => ⟨[], {ps with state := .InObject}, false, false⟩
      | .EndObject =>
        match ps.states with
        | t' :: rest => ⟨[.ok .EndObject], ⟨t', rest⟩, false, false⟩
        | [] => ⟨[], ps, false, true⟩
      | _ => ⟨[parseErr ("Unexpected token `" ++ lexResultDebug (.ok t) ++ "`") line column],
              ps, false, false⟩
    | .InArray =>
      match t with
      | .EndArray =>
        match ps.states with
        | t' :: rest => ⟨[.ok .EndArray], ⟨t', rest⟩, false, false⟩
        | [] => ⟨[], ps, false, true⟩
      | .BooleanValue b => ⟨[.ok (.BooleanValue b)], {ps with state := .InArraySep}, false, false⟩
      | .NullValue => ⟨[.ok .NullValue], {ps with state := .InArraySep}, false, false⟩
      | .IntValue s => ⟨[.ok (.IntValue s)], {ps with state := .InArraySep}, false, false⟩
      | .FloatValue s => ⟨[.ok (.FloatValue s)], {ps with state := .InArraySep}, false, false⟩
      | .String s => ⟨[.ok (.StringValue s)], {ps with state := .InArraySep}, false, false⟩
      | .BeginObject =>
        ⟨[.ok .BeginObject], ⟨.InObject, .InArraySep :: ps.states⟩, false, false⟩
      | .BeginArray =>
        ⟨[.ok .BeginArray], ⟨.InArray, .InArraySep :: ps.states⟩, false, false⟩
      | _ => ⟨[parseErr ("Unexpected token `" ++ lexResultDebug (.ok t) ++ "`") line column],
              ps, false, false⟩
    | .InArraySep =>
      match t with
      | .ValueSeparator => ⟨[], {ps with state := .InArray}, false, false⟩
      | .EndArray =>
        match ps.states with
        | t' :: rest => ⟨[.ok .EndArray], ⟨t', rest⟩, false, false⟩
        | [] => ⟨[], ps, false, true⟩
      | _ => ⟨[parseErr ("Unexpected token `" ++ lexResultDebug (.ok t) ++ "`") line column],
              ps, false, false⟩

/-- Feed a list of lexer emissions to the parser adapter.  After an
abort (`Err(ConsumeError)`) or a panic no further events are delivered:
the lexer's `?` operator unwinds. -/
def parseRun (ps : ParserSt) : List LexEmit → List PEvent × ParserSt
  | [] => ([], ps)
  | e :: rest =>
    let r := pconsume ps e.res e.line e.column
    if r.abort ∨ r.panic then (r.events, r.st)
    else
      let rr := parseRun r.st rest
      (r.events ++ rr.1, rr.2)

/-- `JSONLexerToParser::new`. -/
def initParserSt : ParserSt := ⟨.Undefined, []⟩

/-- `JSONParser::parse`: the user consumer's view of a whole pass (the
consumer collects and never aborts). -/
def parse (input : List Nat) (ign : Bool) : List PEvent :=
  (parseRun initParserSt (lex input ign)).1

/-! ## The byte source (`byte_source.rs`)

The underlying `Read` implementation is modelled as a list of chunks:
each successful `read` call delivers the next chunk (a real reader may
return any non-empty prefix of the remaining bytes, and `Ok(0)` means
end of stream — an exhausted chunk list).  Transiently failing reads are
retried by the source without any state change, so they need no
representation. -/

/-- `ByteSource`: pending chunks of the reader, the one-byte pushback
cell, and the buffer window with its cursor and fill limit.  The 32 KiB
buffer array is modelled by the filled chunk; beyond `limit` the source
never reads it. -/
structure ByteSource where
  chunks : List (List Nat)
  unget_byte : Option Nat
  buffer : List Nat
  i : Nat
  limit : Nat
deriving DecidableEq

/-- `ByteSource::new`. -/
def ByteSource.new (chunks : List (List Nat)) : ByteSource :=
  ⟨chunks, none, [], 0, 0⟩

/-- `ByteSource::get`. -/
def ByteSource.get (bs : ByteSource) : Option Nat × ByteSource :=
  match bs.unget_byte with
  | some b => (some b, {bs with unget_byte := none})
  | none =>
    if bs.i ≥ bs.limit then
      match bs.chunks with
      | [] => (none, {bs with i := 0})
      | c :: rest =>
        match c with
        | [] => (none, {bs with i := 0, chunks := rest})
        | b :: _ => (some b, {bs with chunks := rest, buffer := c, limit := c.length, i := 1})
    else (some (bs.buffer.getD bs.i 0), {bs with i := bs.i + 1})

/-- `ByteSource::unget`: stash `buffer[i-1]` in the pushback cell. -/
def ByteSource.unget (bs : ByteSource) : ByteSource :=
  {bs with unget_byte := some (bs.buffer.getD (bs.i - 1) 0)}

/-! ## The XML sink (`json2xml.rs`)

Writers are modelled by appending to an output string (an in-memory
`Write` never fails, so the `io::Result` error branches are untaken).
Only the `TypedXMLWrite` strategy is embedded: it is the one the claims
exercise; the other three differ only in fixed per-token formatting. -/

/-- A double quote as a string. -/
def dq : Text := String.mk [Char.ofNat 34]

/-- Is `c` one of the five characters `< > & " '` that force a CDATA
section (`s.find(&['<', '>', '&', '"', ...][..])`)? -/
def cdataSpecial (c : Char) : Bool :=
  c = '<' || c = '>' || c = '&' || c = Char.ofNat 34 || c = Char.ofNat 39

/-- `s.find("]]>").is_some()` on the character list. -/
def hasCdataEnd : List Char → Bool
  | ']' :: ']' :: '>' :: _ => true
  | _ :: rest => hasCdataEnd rest
  | [] => false

/-- `s.replace("]]>", "]]]]><![CDATA[>")`: left-to-right, non-overlapping. -/
def replaceCdataEnd : List Char → List Char
  | ']' :: ']' :: '>' :: rest => ("]]]]><![CDATA[>").data ++ replaceCdataEnd rest
  | c :: rest => c :: replaceCdataEnd rest
  | [] => []

/-- `XMLWrite::escape_value` (the trait's default method). -/
def escape_value (s : Text) : Text :=
  if s.data.any cdataSpecial then
    if hasCdataEnd s.data then
      "<![CDATA[" ++ String.mk (replaceCdataEnd s.data) ++ "]]>"
    else
      "<![CDATA[" ++ s ++ "]]>"
  else s

/-- `TypedXMLWrite::write_value`. -/
def typedWriteValue (out : Text) (cur_key : Text) (value_type : Text) (value : Text) : Text :=
  out ++ "<" ++ cur_key ++ " type=" ++ dq ++ value_type ++ dq ++ ">" ++ value ++
    "</" ++ cur_key ++ ">\n"

/-- `TypedXMLWrite::write_string_value`. -/
def typedWriteStringValue (out : Text) (cur_key : Text) (value : Text) : Text :=
  if value.isEmpty then
    out ++ "<" ++ cur_key ++ " type=" ++ dq ++ "string" ++ dq ++ "/>"
  else
    out ++ "<" ++ cur_key ++ " type=" ++ dq ++ "string" ++ dq ++ ">" ++ escape_value value ++
      "</" ++ cur_key ++ ">"

/-- `TypedXMLWrite::write_open`. -/
def typedWriteOpen (out : Text) : Text :=
  out ++ "<?xml version=" ++ dq ++ "1.0" ++ dq ++ " encoding=" ++ dq ++ "utf-8" ++ dq ++
    "?>\n<root>"

/-- `TypedXMLWrite::write_close`. -/
def typedWriteClose (out : Text) : Text := out ++ "</root>"

/-- `TypedXMLWrite::write_begin`. -/
def typedWriteBegin (out : Text) (cur_key : Text) : Text := out ++ "<" ++ cur_key ++ ">"

/-- `TypedXMLWrite::write_end`. -/
def typedWriteEnd (out : Text) (cur_key : Text) : Text := out ++ "</" ++ cur_key ++ ">"

/-- The state of a `JSON2XMLConsumer` (typed mode): the two stacks and
the accumulated writer output.  List heads are the Rust `Vec` tops. -/
structure J2XState where
  states_stack : List ParserToken
  keys_stack : List Text
  out : Text
deriving DecidableEq

/-- Result of one `JSON2XMLConsumer::consume` call. -/
structure JOut where
  st : J2XState
  abort : Bool
  panic : Bool
deriving DecidableEq

/-- `JSON2XMLConsumer::get_cur_key`: the key, the state (the key stack
may pop), or an abort / a panic. -/
def j2xCurKey (st : J2XState) : Except Bool (Text × J2XState) :=
  match st.states_stack.head? with
  | some .BeginArray => .ok ("li", st)
  | some _ =>
    match st.keys_stack with
    | k :: rest => .ok (k, {st with keys_stack := rest})
    | [] => .error true   -- `keys_stack.pop().unwrap()` panics
  | none => .error false  -- `return Err(ConsumeError)`

/-- `JSON2XMLConsumer::consume` in typed mode. -/
def j2xConsume (st : J2XState) (tok : PEvent) : JOut :=
  match tok with
  | .error _ => ⟨st, true, false⟩
  | .ok t =>
    match t with
    | .BeginFile => ⟨{st with out := typedWriteOpen st.out}, false, false⟩
    | .EndFile => ⟨{st with out := typedWriteClose st.out}, false, false⟩
    | .BeginObject =>
      match st.states_stack.head? with
      | some .BeginArray =>
        ⟨{st with keys_stack := "li" :: st.keys_stack, out := typedWriteBegin st.out "li", states_stack := .BeginObject :: st.states_stack}, false, false⟩
      | some _ =>
        match st.keys_stack.head? with
        | some k =>
          ⟨{st with out := typedWriteBegin st.out k, states_stack := .BeginObject :: st.states_stack}, false, false⟩
        | none => ⟨st, false, true⟩   -- `keys_stack.last().unwrap()` panics
      | none => ⟨{st with states_stack := .BeginObject :: st.states_stack}, false, false⟩
    | .BeginArray =>
      match st.states_stack.head? with
      | some .BeginArray =>
        ⟨{st with keys_stack := "li" :: st.keys_stack, out := typedWriteBegin st.out "li", states_stack := .BeginArray :: st.states_stack}, false, false⟩
      | some _ =>
        match st.keys_stack.head? with
        | some k =>
          ⟨{st with out := typedWriteBegin st.out k, states_stack := .BeginArray :: st.states_stack}, false, false⟩
        | none => ⟨st, false, true⟩
      | none => ⟨{st with states_stack := .BeginArray :: st.states_stack}, false, false⟩
    | .EndObject =>
      match st.states_stack with
      | _ :: rest =>
        match rest.head? with
        | some _ =>
          match st.keys_stack with
          | k :: krest =>
            ⟨{st with states_stack := rest, keys_stack := krest, out := typedWriteEnd st.out k}, false, false⟩
          | [] => ⟨st, false, true⟩
        | none => ⟨{st with states_stack := rest}, false, false⟩
      | [] => ⟨st, false, true⟩       -- `states_stack.pop().unwrap()` panics
    | .EndArray =>
      match st.states_stack with
      | _ :: rest =>
        match rest.head? with
        | some _ =>
          match st.keys_stack with
          | k :: krest =>
            ⟨{st with states_stack := rest, keys_stack := krest, out := typedWriteEnd st.out k}, false, false⟩
          | [] => ⟨st, false, true⟩
        | none => ⟨{st with states_stack := rest}, false, false⟩
      | [] => ⟨st, false, true⟩
    | .Key s => ⟨{st with keys_stack := s :: st.keys_stack}, false, false⟩
    | .BooleanValue b =>
      match j2xCurKey st with
      | .ok (k, st1) =>
        ⟨{st1 with out := typedWriteValue st1.out k "boolean" (if b then "true" else "false")},
          false, false⟩
      | .error p => ⟨st, !p, p⟩
    | .NullValue =>
      match j2xCurKey st with
      | .ok (k, st1) =>
        ⟨{st1 with out := typedWriteValue st1.out k "null" "null"}, false, false⟩
      | .error p => ⟨st, !p, p⟩
    | .StringValue s =>
      match j2xCurKey st with
      | .ok (k, st1) =>
        ⟨{st1 with out := typedWriteStringValue st1.out k s}, false, false⟩
      | .error p => ⟨st, !p, p⟩
    | .IntValue s =>
      match j2xCurKey st with
      | .ok (k, st1) =>
        ⟨{st1 with out := typedWriteValue st1.out k "int" s}, false, false⟩
      | .error p => ⟨st, !p, p⟩
    | .FloatValue s =>
      match j2xCurKey st with
      | .ok (k, st1) =>
        ⟨{st1 with out := typedWriteValue st1.out k "float" s}, false, false⟩
      | .error p => ⟨st, !p, p⟩

/-- Feed parser events to the typed XML sink; an abort or a panic stops
the pipeline. -/
def j2xRun (st : J2XState) : List PEvent → J2XState
  | [] => st
  | e :: rest =>
    let r := j2xConsume st e
    if r.abort ∨ r.panic then r.st else j2xRun r.st rest

/-- The whole pipeline of the `json2xml` tool in typed mode: bytes to
XML text. -/
def json2xmlTyped (input : List Nat) : Text :=
  (j2xRun ⟨[], [], ""⟩ (parse input false)).out

/-! ## The number grammar

`matchNumber` is a decision procedure for the regular expression
`-?(0|[1-9][0-9]*)(\.[0-9]+)?([eE]-?[0-9]+)?` of the specification,
on byte lists (the lexer normalises the exponent introducer to `e`,
which the character class `[eE]` accepts). -/

/-- An ASCII digit byte. -/
def isDigitB (b : Nat) : Bool := 48 ≤ b && b ≤ 57

/-- Strip one optional leading minus sign. -/
def stripMinus (l : List Nat) : List Nat :=
  match l with
  | b :: r => if b = 45 then r else b :: r
  | [] => []

/-- Consume `-?(0|[1-9][0-9]*)` greedily; `none` when no integer part is
present. -/
def afterInt (l : List Nat) : Option (List Nat) :=
  match stripMinus l with
  | [] => none
  | b :: r =>
    if b = 48 then some r
    else if 49 ≤ b && b ≤ 57 then some (r.dropWhile isDigitB) else none

/-- Consume `-?(0|[1-9][0-9]*)(\.[0-9]+)?` greedily. -/
def afterFracOpt (l : List Nat) : Option (List Nat) :=
  match afterInt l with
  | none => none
  | some [] => some []
  | some (d :: ds) =>
    if d = 46 then
      match ds with
      | [] => none
      | e :: _ => if isDigitB e then some (ds.dropWhile isDigitB) else none
    else some (d :: ds)

/-- Full match of the number regular expression. -/
def matchNumber (l : List Nat) : Bool :=
  match afterFracOpt l with
  | some [] => true
  | some (e :: r) =>
    if e = 101 then
      let r1 := if r.head? = some 45 then r.tail else r
      !r1.isEmpty && r1.all isDigitB
    else false
  | none => false

/-- Full match of the number regular expression, on the text of an
emitted lexeme. -/
def matchNumberStr (s : Text) : Bool :=
  matchNumber (s.data.map Char.toNat)

/-- Shape of the buffer in sub-state `ZeroNumberStart`. -/
def shapeZero (l : List Nat) : Bool := l == [48] || l == [45, 48]

/-- Shape of the buffer in sub-state `OtherNumber`: `-?[1-9][0-9]*`. -/
def shapeOther (l : List Nat) : Bool :=
  match stripMinus l with
  | b :: r => (49 ≤ b && b ≤ 57) && r.all isDigitB
  | [] => false

/-- Shape of the buffer in sub-state `NumberFracStart`. -/
def shapeFracStart (l : List Nat) : Bool := afterInt l == some [46]

/-- Shape of the buffer in sub-state `NumberFrac`. -/
def shapeFrac (l : List Nat) : Bool :=
  match afterInt l with
  | some (d :: ds) => (d == 46) && (!ds.isEmpty && ds.all isDigitB)
  | _ => false

/-- Shape of the buffer in sub-state `NumberFracExpStart`. -/
def shapeExpStart (l : List Nat) : Bool := afterFracOpt l == some [101]

/-- Shape of the buffer in sub-state `NumberFracExpMinusStart`. -/
def shapeExpMinusStart (l : List Nat) : Bool := afterFracOpt l == some [101, 45]

/-- Shape of the buffer in sub-state `NumberFracExp`. -/
def shapeExp (l : List Nat) : Bool :=
  match afterFracOpt l with
  | some (e :: ds) => (e == 101) && (!ds.isEmpty && ds.all isDigitB)
  | _ => false

/-- Shape of the buffer in sub-state `NumberFracExpMinus`. -/
def shapeExpMinus (l : List Nat) : Bool :=
  match afterFracOpt l with
  | some (e :: rest) =>
    (e == 101) &&
      (match rest with
        | m :: ds => (m == 45) && (!ds.isEmpty && ds.all isDigitB)
        | [] => false)
  | _ => false

/-- The buffer shape maintained in each number sub-state. -/
def bufShape : LexerNumberSubState → List Nat → Bool
  | .None, _ => true
  | .NegNumberStart, l => l == [45]
  | .ZeroNumberStart, l => shapeZero l
  | .OtherNumber, l => shapeOther l
  | .NumberFracStart, l => shapeFracStart l
  | .NumberFrac, l => shapeFrac l
  | .NumberFracExpStart, l => shapeExpStart l
  | .NumberFracExp, l => shapeExp l
  | .NumberFracExpMinusStart, l => shapeExpMinusStart l
  | .NumberFracExpMinus, l => shapeExpMinus l

/-- The lexer state invariant: in number mode the buffer has the shape of
its sub-state and is ASCII, and a keyword `Expect` state only ever holds
one of the three literal tokens. -/
def lexInv (s : LexState) : Prop :=
  (s.state = .Number → bufShape s.number_sub_state s.buf = true ∧ s.buf.all (· < 128) = true)
  ∧ (∀ t, s.state = .Expect t →
      t = .BooleanValue true ∨ t = .BooleanValue false ∨ t = .NullValue)

/-- Soundness of one emission: it is not a sentinel, and a numeric
lexeme matches the number regular expression. -/
def evOk1 (e : LexEmit) : Prop :=
  (e.res ≠ .ok .BeginFile ∧ e.res ≠ .ok .EndFile) ∧
  (∀ str, e.res = .ok (.IntValue str) ∨ e.res = .ok (.FloatValue str) →
    matchNumberStr str = true)

/-- Event soundness: no sentinel is emitted by the loop or finalisation,
and every numeric lexeme matches the number regular expression. -/
def evOk (evs : List LexEmit) : Prop := ∀ e ∈ evs, evOk1 e

/-! ## Byte source reachability -/

/-- States of a `ByteSource` reachable from a fresh one by any sequence
of `get` and `unget` calls. -/
inductive BSReach : ByteSource → Prop where
  | init (chunks : List (List Nat)) : BSReach (ByteSource.new chunks)
  | get {bs : ByteSource} : BSReach bs → BSReach (ByteSource.get bs).2
  | unget {bs : ByteSource} : BSReach bs → BSReach (ByteSource.unget bs)

/-- The pushback cell, when occupied, holds exactly `buffer[i-1]` — the
byte `unget` would stash again. -/
def bsInv (bs : ByteSource) : Prop :=
  ∀ b, bs.unget_byte = some b → bs.buffer.getD (bs.i - 1) 0 = b


/-! ## Parser stack reachability -/

/-- Well-formed resume stacks of the parser adapter (head is the top of
the Rust `Vec`): one bottom `None` under any number of `InObjectSep` /
`InArraySep` entries. -/
def goodStack : List ParserState → Bool
  | [] => false
  | [x] => x == .None
  | x :: rest => (x == .InObjectSep || x == .InArraySep) && goodStack rest

/-- The adapter invariant: in `Undefined` and `None` the stack is empty,
in every container state it is a well-formed non-empty stack. -/
def pInv (ps : ParserSt) : Prop :=
  match ps.state with
  | .Undefined => ps.states = []
  | .None => ps.states = []
  | _ => goodStack ps.states = true

/-- Adapter configurations reachable from `JSONLexerToParser::new` by
any sequence of consumed tokens. -/
inductive PReach : ParserSt → Prop where
  | init : PReach initParserSt
  | step {ps : ParserSt} (tok : Except JSONLexError LexerToken) (l c : Nat) :
      PReach ps → PReach (pconsume ps tok l c).st


/-! ## Basic lemmas -/

theorem dropWhile_append_all {p : Nat → Bool} {u t : List Nat} (h : u.all p = true) :
    (u ++ t).dropWhile p = t.dropWhile p := by
  induction u with
  | nil => rfl
  | cons a u ih =>
    simp only [List.all_cons, Bool.and_eq_true] at h
    simp [List.dropWhile, h.1, ih h.2]

theorem dropWhile_cons_of_append {p : Nat → Bool} {u : List Nat} {x : Nat} {r t : List Nat}
    (h : u.dropWhile p = x :: r) : (u ++ t).dropWhile p = x :: (r ++ t) := by
  induction u with
  | nil => rw [List.dropWhile_nil] at h; cases h
  | cons a u ih =>
    rw [List.dropWhile_cons] at h
    rw [List.cons_append, List.dropWhile_cons]
    by_cases hp : p a
    · rw [if_pos hp] at h
      rw [if_pos hp]
      exact ih h
    · rw [if_neg hp] at h
      rw [if_neg hp]
      rw [List.cons_eq_cons] at h
      rw [h.1, h.2]

theorem char_toNat_ofNat {b : Nat} (h : b < 128) : (Char.ofNat b).toNat = b := by
  have hv : b.isValidChar := Or.inl (by omega)
  rw [Char.ofNat, dif_pos hv]
  simp [Char.ofNatAux, Char.toNat, UInt32.toNat, UInt32.ofNatCore]

theorem utf8DecodeGo_ascii : ∀ {n : Nat} {l : List Nat}, l.length ≤ n →
    l.all (· < 128) = true → utf8DecodeGo n l = some (l.map Char.ofNat)
  | n, [], _, _ => by cases n <;> rfl
  | n + 1, b :: t, hn, h => by
    simp only [List.all_cons, Bool.and_eq_true, decide_eq_true_eq] at h
    have hb : b < 0x80 := h.1
    simp only [List.length_cons, Nat.add_le_add_iff_right] at hn
    simp [utf8DecodeGo, hb, utf8DecodeGo_ascii hn h.2]

theorem utf8Decode_ascii {l : List Nat} (h : l.all (· < 128) = true) :
    utf8Decode? l = some (l.map Char.ofNat) :=
  utf8DecodeGo_ascii (Nat.le_refl _) h

theorem map_toNat_map_ofNat {l : List Nat} (h : l.all (· < 128) = true) :
    (l.map Char.ofNat).map Char.toNat = l := by
  induction l with
  | nil => rfl
  | cons a l ih =>
    simp only [List.all_cons, Bool.and_eq_true, decide_eq_true_eq] at h
    simp [char_toNat_ofNat h.1, ih h.2]

theorem matchNumberStr_mk {l : List Nat} (h : l.all (· < 128) = true) :
    matchNumberStr (String.mk (l.map Char.ofNat)) = matchNumber l := by
  simp [matchNumberStr, map_toNat_map_ofNat h]


/-! ## Number shape lemmas -/

theorem stripMinus_append {l : List Nat} (t : List Nat) (h : l ≠ []) :
    stripMinus (l ++ t) = stripMinus l ++ t := by
  match l, h with
  | a :: l, _ =>
    by_cases ha : a = 45
    · simp [stripMinus, ha]
    · simp [stripMinus, ha]

theorem afterInt_ne_nil {l : List Nat} {x : List Nat} (h : afterInt l = some x) : l ≠ [] := by
  intro hl
  subst hl
  simp [afterInt, stripMinus] at h

theorem afterInt_append {l t : List Nat} {x : Nat} {r : List Nat}
    (h : afterInt l = some (x :: r)) :
    afterInt (l ++ t) = some (x :: (r ++ t)) := by
  have hl : l ≠ [] := afterInt_ne_nil h
  rcases hsm : stripMinus l with _ | ⟨c, m⟩
  · simp only [afterInt, hsm] at h
    cases h
  · simp only [afterInt, hsm] at h
    simp only [afterInt, stripMinus_append t hl, hsm, List.cons_append]
    by_cases hc : c = 48
    · simp only [hc, if_true, eq_self_iff_true] at h ⊢
      rw [Option.some_inj] at h
      rw [h, List.cons_append]
    · by_cases hc2 : (49 ≤ c && c ≤ 57) = true
      · simp only [hc, hc2, if_true, if_false, eq_self_iff_true] at h ⊢
        rw [Option.some_inj] at h
        rw [dropWhile_cons_of_append h]
      · simp [hc, hc2] at h

theorem afterFracOpt_append {l t : List Nat} {x : Nat} {r : List Nat}
    (h : afterFracOpt l = some (x :: r)) :
    afterFracOpt (l ++ t) = some (x :: (r ++ t)) := by
  rcases hai : afterInt l with _ | ri
  · simp only [afterFracOpt, hai] at h
    cases h
  · rcases ri with _ | ⟨d, ds⟩
    · simp only [afterFracOpt, hai] at h
      cases h
    · simp only [afterFracOpt, hai] at h
      have h2 := afterInt_append (t := t) hai
      by_cases hd : d = 46
      · simp only [hd, if_true, eq_self_iff_true] at h
        rcases ds with _ | ⟨e, ds'⟩
        · cases h
        · by_cases he : isDigitB e = true
          · simp only [he, if_true] at h
            rw [Option.some_inj] at h
            simp only [afterFracOpt, h2, hd, if_true, eq_self_iff_true, List.cons_append]
            simp only [he, if_true]
            rw [← List.cons_append, dropWhile_cons_of_append h]
          · simp [he] at h
      · simp only [hd, if_false] at h
        rw [Option.some_inj, List.cons_eq_cons] at h
        obtain ⟨h1, hrest⟩ := h
        subst h1
        subst hrest
        simp only [afterFracOpt, h2, hd, if_false, List.cons_append]

theorem shapeOther_ne_nil {l : List Nat} (h : shapeOther l = true) : l ≠ [] := by
  intro hl
  subst hl
  simp [shapeOther, stripMinus] at h

theorem shapeOther_parts {l : List Nat} (h : shapeOther l = true) :
    ∃ c m, stripMinus l = c :: m ∧ (49 ≤ c && c ≤ 57) = true ∧ m.all isDigitB = true := by
  rcases hsm : stripMinus l with _ | ⟨c, m⟩
  · simp only [shapeOther, hsm] at h
    cases h
  · simp only [shapeOther, hsm, Bool.and_eq_true] at h
    exact ⟨c, m, rfl, Bool.and_eq_true _ _ |>.mpr ⟨by simp [h.1.1], by simp [h.1.2]⟩, h.2⟩

theorem shapeOther_afterInt {l : List Nat} (h : shapeOther l = true) :
    afterInt l = some [] := by
  obtain ⟨c, m, hsm, hc, hall⟩ := shapeOther_parts h
  have hc48 : ¬(c = 48) := by
    rcases Bool.and_eq_true _ _ |>.mp hc with ⟨h1, _⟩
    simp only [decide_eq_true_eq] at h1
    omega
  have hdw : m.dropWhile isDigitB = [] :=
    List.dropWhile_eq_nil_iff.mpr (fun x hx => List.all_eq_true.mp hall x hx)
  simp [afterInt, hsm, hc48, hc, hdw]

theorem shapeOther_match {l : List Nat} (h : shapeOther l = true) : matchNumber l = true := by
  simp [matchNumber, afterFracOpt, shapeOther_afterInt h]

theorem shapeOther_digit {l : List Nat} {d : Nat} (h : shapeOther l = true)
    (hd : isDigitB d = true) : shapeOther (l ++ [d]) = true := by
  obtain ⟨c, m, hsm, hc, hall⟩ := shapeOther_parts h
  rw [shapeOther, stripMinus_append [d] (shapeOther_ne_nil h), hsm, List.cons_append]
  simp [hc, List.all_append, hall, hd]

theorem shapeOther_append_one {l : List Nat} {d : Nat} (h : shapeOther l = true) :
    afterInt (l ++ [d]) = some ([d].dropWhile isDigitB) := by
  obtain ⟨c, m, hsm, hc, hall⟩ := shapeOther_parts h
  have hc48 : ¬(c = 48) := by
    rcases Bool.and_eq_true _ _ |>.mp hc with ⟨h1, _⟩
    simp only [decide_eq_true_eq] at h1
    omega
  rw [afterInt, stripMinus_append [d] (shapeOther_ne_nil h), hsm, List.cons_append]
  simp only [hc48, if_false, hc, if_true, dropWhile_append_all hall]

theorem shapeOther_dot {l : List Nat} (h : shapeOther l = true) :
    shapeFracStart (l ++ [46]) = true := by
  rw [shapeFracStart, shapeOther_append_one h]
  rfl

theorem shapeOther_e {l : List Nat} (h : shapeOther l = true) :
    shapeExpStart (l ++ [101]) = true := by
  rw [shapeExpStart, afterFracOpt, shapeOther_append_one h]
  rfl

theorem shapeZero_cases {l : List Nat} (h : shapeZero l = true) : l = [48] ∨ l = [45, 48] := by
  simpa [shapeZero] using h

theorem shapeZero_dot {l : List Nat} (h : shapeZero l = true) :
    shapeFracStart (l ++ [46]) = true := by
  rcases shapeZero_cases h with h | h <;> subst h <;> decide

theorem shapeZero_e {l : List Nat} (h : shapeZero l = true) :
    shapeExpStart (l ++ [101]) = true := by
  rcases shapeZero_cases h with h | h <;> subst h <;> decide

theorem shapeFracStart_digit {l : List Nat} {d : Nat} (h : shapeFracStart l = true)
    (hd : isDigitB d = true) : shapeFrac (l ++ [d]) = true := by
  rw [shapeFracStart, beq_iff_eq] at h
  have h2 := afterInt_append (t := [d]) h
  rw [shapeFrac, h2]
  simp [hd]

theorem shapeFrac_parts {l : List Nat} (h : shapeFrac l = true) :
    ∃ ds, afterInt l = some (46 :: ds) ∧ ds ≠ [] ∧ ds.all isDigitB = true := by
  rcases hai : afterInt l with _ | ri
  · simp only [shapeFrac, hai] at h
    cases h
  · rcases ri with _ | ⟨d, ds⟩
    · simp only [shapeFrac, hai] at h
      cases h
    · simp only [shapeFrac, hai, Bool.and_eq_true, beq_iff_eq] at h
      obtain ⟨hd, hne, hall⟩ := h
      subst hd
      exact ⟨ds, rfl, by simpa using hne, hall⟩

theorem shapeFrac_match {l : List Nat} (h : shapeFrac l = true) : matchNumber l = true := by
  obtain ⟨ds, hai, hne, hall⟩ := shapeFrac_parts h
  rcases ds with _ | ⟨e, ds'⟩
  · exact absurd rfl hne
  · rw [List.all_cons, Bool.and_eq_true] at hall
    have hdw : (e :: ds').dropWhile isDigitB = [] :=
      List.dropWhile_eq_nil_iff.mpr (by
        intro x hx
        rcases List.mem_cons.mp hx with hx | hx
        · rw [hx]; exact hall.1
        · exact List.all_eq_true.mp hall.2 x hx)
    simp [matchNumber, afterFracOpt, hai, hall.1, hdw]

theorem shapeFrac_digit {l : List Nat} {d : Nat} (h : shapeFrac l = true)
    (hd : isDigitB d = true) : shapeFrac (l ++ [d]) = true := by
  obtain ⟨ds, hai, hne, hall⟩ := shapeFrac_parts h
  have h2 := afterInt_append (t := [d]) hai
  rw [shapeFrac, h2]
  simp [List.all_append, hall, hd]

theorem shapeFrac_e {l : List Nat} (h : shapeFrac l = true) :
    shapeExpStart (l ++ [101]) = true := by
  obtain ⟨ds, hai, hne, hall⟩ := shapeFrac_parts h
  have h2 := afterInt_append (t := [101]) hai
  rcases ds with _ | ⟨e, ds'⟩
  · exact absurd rfl hne
  · rw [List.all_cons, Bool.and_eq_true] at hall
    have hdw : ((e :: ds') ++ [101]).dropWhile isDigitB = [101] := by
      rw [dropWhile_append_all (by simp [hall.1, hall.2])]
      rfl
    rw [List.cons_append] at hdw
    simp [shapeExpStart, afterFracOpt, h2, hall.1, hdw]

theorem shapeExpStart_eq {l : List Nat} (h : shapeExpStart l = true) :
    afterFracOpt l = some [101] := by
  rwa [shapeExpStart, beq_iff_eq] at h

theorem shapeExpStart_minus {l : List Nat} (h : shapeExpStart l = true) :
    shapeExpMinusStart (l ++ [45]) = true := by
  have h2 := afterFracOpt_append (t := [45]) (shapeExpStart_eq h)
  rw [shapeExpMinusStart, h2]
  rfl

theorem shapeExpStart_digit {l : List Nat} {d : Nat} (h : shapeExpStart l = true)
    (hd : isDigitB d = true) : shapeExp (l ++ [d]) = true := by
  have h2 := afterFracOpt_append (t := [d]) (shapeExpStart_eq h)
  rw [shapeExp, h2]
  simp [hd]

theorem shapeExp_parts {l : List Nat} (h : shapeExp l = true) :
    ∃ ds, afterFracOpt l = some (101 :: ds) ∧ ds ≠ [] ∧ ds.all isDigitB = true := by
  rcases hai : afterFracOpt l with _ | ri
  · simp only [shapeExp, hai] at h
    cases h
  · rcases ri with _ | ⟨e, ds⟩
    · simp only [shapeExp, hai] at h
      cases h
    · simp only [shapeExp, hai, Bool.and_eq_true, beq_iff_eq] at h
      obtain ⟨he, hne, hall⟩ := h
      subst he
      exact ⟨ds, rfl, by simpa using hne, hall⟩

theorem shapeExp_match {l : List Nat} (h : shapeExp l = true) : matchNumber l = true := by
  obtain ⟨ds, hai, hne, hall⟩ := shapeExp_parts h
  rcases ds with _ | ⟨m, ds'⟩
  · exact absurd rfl hne
  · rw [List.all_cons, Bool.and_eq_true] at hall
    have hm45 : ¬(m = 45) := by
      intro hh
      subst hh
      have := hall.1
      simp [isDigitB] at this
    simp [matchNumber, hai, hm45, hall.1, hall.2]

theorem shapeExp_digit {l : List Nat} {d : Nat} (h : shapeExp l = true)
    (hd : isDigitB d = true) : shapeExp (l ++ [d]) = true := by
  obtain ⟨ds, hai, hne, hall⟩ := shapeExp_parts h
  have h2 := afterFracOpt_append (t := [d]) hai
  rw [shapeExp, h2]
  simp [List.all_append, hall, hd]

theorem shapeExpMinusStart_digit {l : List Nat} {d : Nat} (h : shapeExpMinusStart l = true)
    (hd : isDigitB d = true) : shapeExpMinus (l ++ [d]) = true := by
  rw [shapeExpMinusStart, beq_iff_eq] at h
  have h2 := afterFracOpt_append (t := [d]) h
  rw [shapeExpMinus, h2]
  simp [hd]

theorem shapeExpMinus_parts {l : List Nat} (h : shapeExpMinus l = true) :
    ∃ ds, afterFracOpt l = some (101 :: 45 :: ds) ∧ ds ≠ [] ∧ ds.all isDigitB = true := by
  rcases hai : afterFracOpt l with _ | ri
  · simp only [shapeExpMinus, hai] at h
    cases h
  · rcases ri with _ | ⟨e, rest⟩
    · simp only [shapeExpMinus, hai] at h
      cases h
    · rcases rest with _ | ⟨m, ds⟩
      · simp only [shapeExpMinus, hai] at h
        simp at h
      · simp only [shapeExpMinus, hai, Bool.and_eq_true, beq_iff_eq] at h
        obtain ⟨he, hm, hne, hall⟩ := h
        subst he
        subst hm
        exact ⟨ds, rfl, by simpa using hne, hall⟩

theorem shapeExpMinus_match {l : List Nat} (h : shapeExpMinus l = true) :
    matchNumber l = true := by
  obtain ⟨ds, hai, hne, hall⟩ := shapeExpMinus_parts h
  rcases ds with _ | ⟨a, ds'⟩
  · exact absurd rfl hne
  · simp [matchNumber, hai, List.all_cons, Bool.and_eq_true] at hall ⊢
    exact hall

theorem shapeExpMinus_digit {l : List Nat} {d : Nat} (h : shapeExpMinus l = true)
    (hd : isDigitB d = true) : shapeExpMinus (l ++ [d]) = true := by
  obtain ⟨ds, hai, hne, hall⟩ := shapeExpMinus_parts h
  have h2 := afterFracOpt_append (t := [d]) hai
  rw [List.cons_append] at h2
  simp [shapeExpMinus, h2, List.all_append, hall, hd]

/-! ## Step invariants -/

theorem evOk_nil : evOk [] := by simp [evOk]

theorem evOk_cons {e : LexEmit} {l : List LexEmit} :
    evOk (e :: l) ↔ evOk1 e ∧ evOk l := List.forall_mem_cons

theorem evOk_append {l1 l2 : List LexEmit} :
    evOk (l1 ++ l2) ↔ evOk l1 ∧ evOk l2 := List.forall_mem_append

theorem evOk1_mkErr {s : LexState} {m : Text} : evOk1 (mkErr s m) := by
  simp [evOk1, mkErr]

theorem evOk1_err {e : JSONLexError} {l c : Nat} : evOk1 ⟨.error e, l, c⟩ := by
  simp [evOk1]

theorem matchNumberStr_zero : matchNumberStr "0" = true := by decide

theorem evOk1_consumeBuf_int {s : LexState} (hall : s.buf.all (· < 128) = true)
    (hm : matchNumber s.buf = true) : evOk1 (consumeBuf s .IntValue) := by
  rw [consumeBuf, utf8Decode_ascii hall]
  constructor
  · simp
  · intro str hstr
    have : str = String.mk (s.buf.map Char.ofNat) := by
      rcases hstr with h | h
      · simp at h
        exact h.symm
      · simp at h
    rw [this, matchNumberStr_mk hall]
    exact hm

theorem evOk1_consumeBuf_float {s : LexState} (hall : s.buf.all (· < 128) = true)
    (hm : matchNumber s.buf = true) : evOk1 (consumeBuf s .FloatValue) := by
  rw [consumeBuf, utf8Decode_ascii hall]
  constructor
  · simp
  · intro str hstr
    have : str = String.mk (s.buf.map Char.ofNat) := by
      rcases hstr with h | h
      · simp at h
      · simp at h
        exact h.symm
    rw [this, matchNumberStr_mk hall]
    exact hm

theorem lexInv_of_none {s : LexState} (h : s.state = .None) : lexInv s := by
  constructor
  · intro hn
    rw [h] at hn
    cases hn
  · intro t hts
    rw [h] at hts
    cases hts

theorem lexInv_of_string {s : LexState} (h : s.state = .String) : lexInv s := by
  constructor
  · intro hn
    rw [h] at hn
    cases hn
  · intro t hts
    rw [h] at hts
    cases hts

theorem lexInv_of_expect {s : LexState} {tok : LexerToken} (h : s.state = .Expect tok)
    (ht : tok = .BooleanValue true ∨ tok = .BooleanValue false ∨ tok = .NullValue) :
    lexInv s := by
  constructor
  · intro hn
    rw [h] at hn
    cases hn
  · intro t hts
    rw [h] at hts
    injection hts with h2
    subst h2
    exact ht

theorem lexInv_of_number {s : LexState} (h : s.state = .Number)
    (hs : bufShape s.number_sub_state s.buf = true) (ha : s.buf.all (· < 128) = true) :
    lexInv s := by
  constructor
  · intro _
    exact ⟨hs, ha⟩
  · intro t hts
    rw [h] at hts
    cases hts

theorem evOk1_mkOk_plain {s : LexState} {t : LexerToken}
    (h1 : t ≠ .BeginFile) (h2 : t ≠ .EndFile)
    (h3 : ∀ str, t ≠ .IntValue str) (h4 : ∀ str, t ≠ .FloatValue str) :
    evOk1 (mkOk s t) := by
  refine ⟨⟨by simp [mkOk, h1], by simp [mkOk, h2]⟩, ?_⟩
  intro str hstr
  rcases hstr with h | h
  · simp only [mkOk, Except.ok.injEq] at h
    exact absurd h (h3 str)
  · simp only [mkOk, Except.ok.injEq] at h
    exact absurd h (h4 str)

theorem stepNone_inv {s : LexState} {b : Nat} (hinv : lexInv s) :
    lexInv (stepNone s b).st ∧ evOk (stepNone s b).events := by
  rw [stepNone]
  by_cases c1 : b = 32 ∨ b = 9 ∨ b = 13
  · rw [if_pos c1]
    exact ⟨hinv, evOk_nil⟩
  rw [if_neg c1]
  by_cases c2 : b = 102
  · rw [if_pos c2]
    exact ⟨lexInv_of_expect rfl (Or.inr (Or.inl rfl)), evOk_nil⟩
  rw [if_neg c2]
  by_cases c3 : b = 116
  · rw [if_pos c3]
    exact ⟨lexInv_of_expect rfl (Or.inl rfl), evOk_nil⟩
  rw [if_neg c3]
  by_cases c4 : b = 110
  · rw [if_pos c4]
    exact ⟨lexInv_of_expect rfl (Or.inr (Or.inr rfl)), evOk_nil⟩
  rw [if_neg c4]
  by_cases c5 : b = 123
  · rw [if_pos c5]
    exact ⟨hinv, evOk_cons.mpr ⟨evOk1_mkOk_plain (by simp) (by simp) (by simp) (by simp), evOk_nil⟩⟩
  rw [if_neg c5]
  by_cases c6 : b = 125
  · rw [if_pos c6]
    exact ⟨hinv, evOk_cons.mpr ⟨evOk1_mkOk_plain (by simp) (by simp) (by simp) (by simp), evOk_nil⟩⟩
  rw [if_neg c6]
  by_cases c7 : b = 91
  · rw [if_pos c7]
    exact ⟨hinv, evOk_cons.mpr ⟨evOk1_mkOk_plain (by simp) (by simp) (by simp) (by simp), evOk_nil⟩⟩
  rw [if_neg c7]
  by_cases c8 : b = 93
  · rw [if_pos c8]
    exact ⟨hinv, evOk_cons.mpr ⟨evOk1_mkOk_plain (by simp) (by simp) (by simp) (by simp), evOk_nil⟩⟩
  rw [if_neg c8]
  by_cases c9 : b = 58
  · rw [if_pos c9]
    exact ⟨hinv, evOk_cons.mpr ⟨evOk1_mkOk_plain (by simp) (by simp) (by simp) (by simp), evOk_nil⟩⟩
  rw [if_neg c9]
  by_cases c10 : b = 44
  · rw [if_pos c10]
    exact ⟨hinv, evOk_cons.mpr ⟨evOk1_mkOk_plain (by simp) (by simp) (by simp) (by simp), evOk_nil⟩⟩
  rw [if_neg c10]
  by_cases c11 : b = 45
  · rw [if_pos c11]
    exact ⟨lexInv_of_number rfl rfl rfl, evOk_nil⟩
  rw [if_neg c11]
  by_cases c12 : b = 48
  · rw [if_pos c12]
    exact ⟨lexInv_of_number rfl rfl rfl, evOk_nil⟩
  rw [if_neg c12]
  by_cases c13 : b = 34
  · rw [if_pos c13]
    exact ⟨lexInv_of_string rfl, evOk_nil⟩
  rw [if_neg c13]
  by_cases c14 : 49 ≤ b ∧ b ≤ 57
  · rw [if_pos c14]
    refine ⟨lexInv_of_number rfl ?_ ?_, evOk_nil⟩
    · have hb45 : ¬(b = 45) := by omega
      simp only [bufShape, shapeOther, stripMinus, hb45, if_false, List.all_nil, Bool.and_true]
      simp only [decide_eq_true_eq, Bool.and_eq_true]
      exact ⟨by simp [c14.1], by simp [c14.2]⟩
    · simp only [List.all_cons, List.all_nil, Bool.and_true, decide_eq_true_eq]
      omega
  rw [if_neg c14]
  exact ⟨hinv, evOk_cons.mpr ⟨evOk1_mkErr, evOk_nil⟩⟩

theorem stepExpect_inv {s : LexState} {tok : LexerToken} {b : Nat}
    (hst : s.state = .Expect tok)
    (ht : tok = .BooleanValue true ∨ tok = .BooleanValue false ∨ tok = .NullValue) :
    lexInv (stepExpect s tok b).st ∧ evOk (stepExpect s tok b).events := by
  rw [stepExpect]
  by_cases c1 : s.expected_index < s.expect.length
  · rw [if_pos c1]
    by_cases c2 : s.expect.getD s.expected_index 0 = b
    · rw [if_pos c2]
      exact ⟨lexInv_of_expect hst ht, evOk_nil⟩
    · rw [if_neg c2]
      exact ⟨lexInv_of_none rfl, evOk_cons.mpr ⟨evOk1_mkErr, evOk_nil⟩⟩
  · rw [if_neg c1]
    by_cases c2 : s.expected_index = s.expect.length
    · rw [if_pos c2]
      refine ⟨lexInv_of_none rfl, evOk_cons.mpr ⟨?_, evOk_nil⟩⟩
      rcases ht with h | h | h <;> subst h <;>
        exact evOk1_mkOk_plain (by simp) (by simp) (by simp) (by simp)
    · rw [if_neg c2]
      exact ⟨lexInv_of_expect hst ht, evOk_nil⟩

theorem evOk_tryAppend {s : LexState} {buf : List Nat} {cp : Nat} :
    evOk (tryAppend s buf cp).1 := by
  rw [tryAppend]
  split_ifs
  · exact evOk_nil
  · exact evOk_nil
  · exact evOk_cons.mpr ⟨evOk1_mkErr, evOk_nil⟩

theorem hexStep_state {s : LexState} {b : Nat} :
    (hexStep s b).1.state = s.state ∧ (hexStep s b).1.buf = s.buf ∧ evOk (hexStep s b).2 := by
  rw [hexStep]
  by_cases c1 : s.unicode_index ≤ 3
  · rw [if_pos c1]
    rcases parseHex s b with i | e
    · exact ⟨rfl, rfl, evOk_cons.mpr ⟨evOk1_err, evOk_nil⟩⟩
    · exact ⟨rfl, rfl, evOk_nil⟩
  · rw [if_neg c1]
    exact ⟨rfl, rfl, evOk_nil⟩

theorem unicodeEnd_inv {s1 : LexState} {evs : List LexEmit} (hst : s1.state = .String)
    (hevs : evOk evs) : lexInv (unicodeEnd s1 evs).st ∧ evOk (unicodeEnd s1 evs).events := by
  rw [unicodeEnd]
  split_ifs
  · exact ⟨lexInv_of_string hst, hevs⟩
  · exact ⟨lexInv_of_string hst, evOk_append.mpr ⟨hevs, evOk_tryAppend⟩⟩
  · exact ⟨lexInv_of_string hst, hevs⟩

theorem unicodeHighEnd_inv {s1 : LexState} {evs : List LexEmit} (hst : s1.state = .String)
    (hevs : evOk evs) :
    lexInv (unicodeHighEnd s1 evs).st ∧ evOk (unicodeHighEnd s1 evs).events := by
  rw [unicodeHighEnd]
  split_ifs
  · exact ⟨lexInv_of_string hst, evOk_append.mpr ⟨hevs, evOk_tryAppend⟩⟩
  · exact ⟨lexInv_of_string hst,
      evOk_append.mpr ⟨hevs, evOk_cons.mpr ⟨evOk1_mkErr, evOk_nil⟩⟩⟩
  · exact ⟨lexInv_of_string hst, hevs⟩

theorem stepString_inv {s : LexState} {b : Nat} (hst : s.state = .String) :
    lexInv (stepString s b).st ∧ evOk (stepString s b).events := by
  rw [stepString]
  by_cases ch : s.high = 0
  · rw [if_pos ch]
    rcases hss : s.string_sub_state with _ | _ | _
    · by_cases c1 : b = 92
      · rw [if_pos c1]
        exact ⟨lexInv_of_string hst, evOk_nil⟩
      · rw [if_neg c1]
        by_cases c2 : b = 34
        · rw [if_pos c2]
          refine ⟨lexInv_of_none rfl, evOk_cons.mpr ⟨?_, evOk_nil⟩⟩
          rw [consumeBuf]
          rcases utf8Decode? s.buf with _ | cs
          · exact evOk1_mkErr
          · exact evOk1_mkOk_plain (by simp) (by simp) (by simp) (by simp)
        · rw [if_neg c2]
          exact ⟨lexInv_of_string hst, evOk_nil⟩
    · by_cases c1 : b = 34 ∨ b = 92
      · rw [if_pos c1]
        exact ⟨lexInv_of_string hst, evOk_nil⟩
      · rw [if_neg c1]
        by_cases c2 : b = 98
        · rw [if_pos c2]
          exact ⟨lexInv_of_string hst, evOk_nil⟩
        · rw [if_neg c2]
          by_cases c3 : b = 102
          · rw [if_pos c3]
            exact ⟨lexInv_of_string hst, evOk_nil⟩
          · rw [if_neg c3]
            by_cases c4 : b = 110
            · rw [if_pos c4]
              exact ⟨lexInv_of_string hst, evOk_nil⟩
            · rw [if_neg c4]
              by_cases c5 : b = 114
              · rw [if_pos c5]
                exact ⟨lexInv_of_string hst, evOk_nil⟩
              · rw [if_neg c5]
                by_cases c6 : b = 116
                · rw [if_pos c6]
                  exact ⟨lexInv_of_string hst, evOk_nil⟩
                · rw [if_neg c6]
                  by_cases c7 : b = 117
                  · rw [if_pos c7]
                    exact ⟨lexInv_of_string hst, evOk_nil⟩
                  · rw [if_neg c7]
                    exact ⟨lexInv_of_string hst, evOk_cons.mpr ⟨evOk1_mkErr, evOk_nil⟩⟩
    · exact unicodeEnd_inv (hexStep_state.1.trans hst) hexStep_state.2.2
  · rw [if_neg ch]
    rcases hss : s.string_sub_state with _ | _ | _
    · by_cases c1 : b = 92
      · rw [if_pos c1]
        exact ⟨lexInv_of_string hst, evOk_nil⟩
      · rw [if_neg c1]
        exact ⟨lexInv_of_string hst, evOk_cons.mpr ⟨evOk1_mkErr, evOk_nil⟩⟩
    · by_cases c1 : b = 117
      · rw [if_pos c1]
        exact ⟨lexInv_of_string hst, evOk_nil⟩
      · rw [if_neg c1]
        exact ⟨lexInv_of_string hst, evOk_cons.mpr ⟨evOk1_mkErr, evOk_nil⟩⟩
    · exact unicodeHighEnd_inv (hexStep_state.1.trans hst) hexStep_state.2.2

theorem ascii_append {l : List Nat} {d : Nat} (h : l.all (· < 128) = true) (hd : d < 128) :
    (l ++ [d]).all (· < 128) = true := by
  simp [List.all_append, h, hd]

theorem evOk1_int0 {s : LexState} : evOk1 (mkOk s (.IntValue "0")) := by
  refine ⟨⟨by simp [mkOk], by simp [mkOk]⟩, ?_⟩
  intro str hstr
  rcases hstr with h | h
  · simp only [mkOk, Except.ok.injEq, LexerToken.IntValue.injEq] at h
    rw [← h]
    exact matchNumberStr_zero
  · simp [mkOk] at h

theorem stepNumber_inv {s : LexState} {b : Nat} (hst : s.state = .Number)
    (hsh : bufShape s.number_sub_state s.buf = true)
    (hascii : s.buf.all (· < 128) = true) :
    lexInv (stepNumber s b).st ∧ evOk (stepNumber s b).events := by
  rw [stepNumber]
  rcases hss : s.number_sub_state with _ | _ | _ | _ | _ | _ | _ | _ | _ | _
  all_goals dsimp only
  -- None (dead arm)
  · exact ⟨lexInv_of_number hst (by rw [hss]; rfl) hascii, evOk_nil⟩
  -- NegNumberStart
  · rw [hss, bufShape] at hsh
    have hbuf : s.buf = [45] := by simpa using hsh
    by_cases c1 : b = 48
    · rw [if_pos c1]
      refine ⟨lexInv_of_number hst ?_ ?_, evOk_nil⟩
      · simp [bufShape, hbuf, shapeZero]
      · rw [hbuf]
        rfl
    · rw [if_neg c1]
      by_cases c2 : 49 ≤ b ∧ b ≤ 57
      · rw [if_pos c2]
        refine ⟨lexInv_of_number hst ?_ ?_, evOk_nil⟩
        · rw [hbuf]
          simp only [bufShape, shapeOther, stripMinus, List.cons_append, List.nil_append]
          simp [c2.1, c2.2]
        · rw [hbuf]
          refine ascii_append (by decide) (by omega)
      · rw [if_neg c2]
        exact ⟨lexInv_of_none rfl, evOk_cons.mpr ⟨evOk1_mkErr, evOk_nil⟩⟩
  -- ZeroNumberStart
  · rw [hss, bufShape] at hsh
    by_cases c1 : b = 46
    · rw [if_pos c1]
      exact ⟨lexInv_of_number hst (shapeZero_dot hsh) (ascii_append hascii (by omega)), evOk_nil⟩
    · rw [if_neg c1]
      by_cases c2 : b = 101 ∨ b = 69
      · rw [if_pos c2]
        exact ⟨lexInv_of_number hst (shapeZero_e hsh) (ascii_append hascii (by omega)), evOk_nil⟩
      · rw [if_neg c2]
        exact ⟨lexInv_of_none rfl, evOk_cons.mpr ⟨evOk1_int0, evOk_nil⟩⟩
  -- OtherNumber
  · rw [hss, bufShape] at hsh
    by_cases c1 : b = 46
    · rw [if_pos c1]
      exact ⟨lexInv_of_number hst (shapeOther_dot hsh) (ascii_append hascii (by omega)), evOk_nil⟩
    · rw [if_neg c1]
      by_cases c2 : b = 101 ∨ b = 69
      · rw [if_pos c2]
        exact ⟨lexInv_of_number hst (shapeOther_e hsh) (ascii_append hascii (by omega)), evOk_nil⟩
      · rw [if_neg c2]
        by_cases c3 : 48 ≤ b ∧ b ≤ 57
        · rw [if_pos c3]
          refine ⟨lexInv_of_number hst
            (shapeOther_digit hsh (by simp [isDigitB, c3.1, c3.2]))
            (ascii_append hascii (by omega)), evOk_nil⟩
        · rw [if_neg c3]
          exact ⟨lexInv_of_none rfl,
            evOk_cons.mpr ⟨evOk1_consumeBuf_int hascii (shapeOther_match hsh), evOk_nil⟩⟩
  -- NumberFracStart
  · rw [hss, bufShape] at hsh
    by_cases c1 : 48 ≤ b ∧ b ≤ 57
    · rw [if_pos c1]
      exact ⟨lexInv_of_number hst (shapeFracStart_digit hsh (by simp [isDigitB, c1.1, c1.2]))
        (ascii_append hascii (by omega)), evOk_nil⟩
    · rw [if_neg c1]
      exact ⟨lexInv_of_none rfl, evOk_cons.mpr ⟨evOk1_mkErr, evOk_nil⟩⟩
  -- NumberFrac
  · rw [hss, bufShape] at hsh
    by_cases c1 : b = 101 ∨ b = 69
    · rw [if_pos c1]
      exact ⟨lexInv_of_number hst (shapeFrac_e hsh) (ascii_append hascii (by omega)), evOk_nil⟩
    · rw [if_neg c1]
      by_cases c2 : 48 ≤ b ∧ b ≤ 57
      · rw [if_pos c2]
        exact ⟨lexInv_of_number hst (shapeFrac_digit hsh (by simp [isDigitB, c2.1, c2.2]))
          (ascii_append hascii (by omega)), evOk_nil⟩
      · rw [if_neg c2]
        exact ⟨lexInv_of_none rfl,
          evOk_cons.mpr ⟨evOk1_consumeBuf_float hascii (shapeFrac_match hsh), evOk_nil⟩⟩
  -- NumberFracExpStart
  · rw [hss, bufShape] at hsh
    by_cases c1 : b = 45
    · rw [if_pos c1]
      exact ⟨lexInv_of_number hst (shapeExpStart_minus hsh) (ascii_append hascii (by omega)),
        evOk_nil⟩
    · rw [if_neg c1]
      by_cases c2 : 48 ≤ b ∧ b ≤ 57
      · rw [if_pos c2]
        exact ⟨lexInv_of_number hst (shapeExpStart_digit hsh (by simp [isDigitB, c2.1, c2.2]))
          (ascii_append hascii (by omega)), evOk_nil⟩
      · rw [if_neg c2]
        exact ⟨lexInv_of_none rfl, evOk_cons.mpr ⟨evOk1_mkErr, evOk_nil⟩⟩
  -- NumberFracExp
  · rw [hss, bufShape] at hsh
    by_cases c1 : 48 ≤ b ∧ b ≤ 57
    · rw [if_pos c1]
      exact ⟨lexInv_of_number hst (shapeExp_digit hsh (by simp [isDigitB, c1.1, c1.2]))
        (ascii_append hascii (by omega)), evOk_nil⟩
    · rw [if_neg c1]
      exact ⟨lexInv_of_none rfl,
        evOk_cons.mpr ⟨evOk1_consumeBuf_float hascii (shapeExp_match hsh), evOk_nil⟩⟩
  -- NumberFracExpMinusStart
  · rw [hss, bufShape] at hsh
    by_cases c1 : 48 ≤ b ∧ b ≤ 57
    · rw [if_pos c1]
      exact ⟨lexInv_of_number hst (shapeExpMinusStart_digit hsh (by simp [isDigitB, c1.1, c1.2]))
        (ascii_append hascii (by omega)), evOk_nil⟩
    · rw [if_neg c1]
      exact ⟨lexInv_of_none rfl, evOk_cons.mpr ⟨evOk1_mkErr, evOk_nil⟩⟩
  -- NumberFracExpMinus
  · rw [hss, bufShape] at hsh
    by_cases c1 : 48 ≤ b ∧ b ≤ 57
    · rw [if_pos c1]
      exact ⟨lexInv_of_number hst (shapeExpMinus_digit hsh (by simp [isDigitB, c1.1, c1.2]))
        (ascii_append hascii (by omega)), evOk_nil⟩
    · rw [if_neg c1]
      exact ⟨lexInv_of_none rfl,
        evOk_cons.mpr ⟨evOk1_consumeBuf_float hascii (shapeExpMinus_match hsh), evOk_nil⟩⟩

theorem lexStep_inv {s : LexState} {b : Nat} (hinv : lexInv s) :
    lexInv (lexStep s b).st ∧ evOk (lexStep s b).events := by
  have hinv' : lexInv {s with column := s.column + 1} := hinv
  rw [lexStep]
  by_cases hb : b = 10
  · rw [if_pos hb]
    exact ⟨hinv, evOk_nil⟩
  · rw [if_neg hb]
    dsimp only
    rcases hst : s.state with _ | t | _ | _
    · rw [hst] at hinv'
      exact stepNone_inv hinv'
    · exact stepExpect_inv rfl (hinv.2 t hst)
    · have h2 := hinv.1 hst
      exact stepNumber_inv rfl h2.1 h2.2
    · exact stepString_inv rfl

theorem lexRun_inv : ∀ {i : List Nat} {s : LexState}, lexInv s →
    lexInv (lexRun s i).2 ∧ evOk (lexRun s i).1
  | [], s, h => ⟨h, evOk_nil⟩
  | b :: rest, s, h => by
    have h1 := lexStep_inv (b := b) h
    rw [lexRun]
    by_cases hug : (lexStep s b).unget
    · rw [if_pos hug]
      have h2 := lexStep_inv (b := b) h1.1
      have h3 := lexRun_inv (i := rest) h2.1
      exact ⟨h3.1, evOk_append.mpr ⟨h1.2, evOk_append.mpr ⟨h2.2, h3.2⟩⟩⟩
    · rw [if_neg hug]
      have h3 := lexRun_inv (i := rest) h1.1
      exact ⟨h3.1, evOk_append.mpr ⟨h1.2, h3.2⟩⟩

theorem lexFinalize_evOk {s : LexState} (hinv : lexInv s) : evOk (lexFinalize s) := by
  rw [lexFinalize]
  rcases hst : s.state with _ | t | _ | _
  · exact evOk_nil
  · exact evOk_cons.mpr ⟨evOk1_mkErr, evOk_nil⟩
  · have h2 := hinv.1 hst
    rcases hss : s.number_sub_state with _ | _ | _ | _ | _ | _ | _ | _ | _ | _
    all_goals dsimp only
    · exact evOk_cons.mpr ⟨evOk1_mkErr, evOk_nil⟩
    · exact evOk_cons.mpr ⟨evOk1_mkErr, evOk_nil⟩
    · exact evOk_cons.mpr ⟨evOk1_int0, evOk_nil⟩
    · rw [hss, bufShape] at h2
      exact evOk_cons.mpr ⟨evOk1_consumeBuf_int h2.2 (shapeOther_match h2.1), evOk_nil⟩
    · exact evOk_cons.mpr ⟨evOk1_mkErr, evOk_nil⟩
    · rw [hss, bufShape] at h2
      exact evOk_cons.mpr ⟨evOk1_consumeBuf_float h2.2 (shapeFrac_match h2.1), evOk_nil⟩
    · exact evOk_cons.mpr ⟨evOk1_mkErr, evOk_nil⟩
    · rw [hss, bufShape] at h2
      exact evOk_cons.mpr ⟨evOk1_consumeBuf_float h2.2 (shapeExp_match h2.1), evOk_nil⟩
    · exact evOk_cons.mpr ⟨evOk1_mkErr, evOk_nil⟩
    · rw [hss, bufShape] at h2
      exact evOk_cons.mpr ⟨evOk1_consumeBuf_float h2.2 (shapeExpMinus_match h2.1), evOk_nil⟩
  · rcases utf8Decode? s.buf with _ | cs
    · exact evOk_cons.mpr ⟨evOk1_mkErr, evOk_nil⟩
    · exact evOk_cons.mpr ⟨evOk1_mkErr, evOk_nil⟩

theorem countP_begin_zero {l : List LexEmit} (h : evOk l) :
    l.countP (fun e => decide (e.res = .ok .BeginFile)) = 0 :=
  List.countP_eq_zero.mpr (fun e he => by simpa using (h e he).1.1)

theorem countP_end_zero {l : List LexEmit} (h : evOk l) :
    l.countP (fun e => decide (e.res = .ok .EndFile)) = 0 :=
  List.countP_eq_zero.mpr (fun e he => by simpa using (h e he).1.2)

/-- C1: for every input byte stream, with a consumer that never aborts,
`JSONLexer::lex` delivers exactly one `Ok(BeginFile)` as the very first
event and exactly one `Ok(EndFile)` as the very last event, and neither
sentinel anywhere else (each occurs exactly once in the whole
sequence). -/
theorem claim1_lex_sentinels (input : List Nat) (ign : Bool) :
    (lex input ign).head? = some ⟨.ok .BeginFile, 0, 0⟩ ∧
    (∃ l c, (lex input ign).getLast? = some ⟨.ok .EndFile, l, c⟩) ∧
    (lex input ign).countP (fun e => decide (e.res = .ok .BeginFile)) = 1 ∧
    (lex input ign).countP (fun e => decide (e.res = .ok .EndFile)) = 1 := by
  have hrun := lexRun_inv (i := input) (s := initLexState ign) (lexInv_of_none rfl)
  have hfin := lexFinalize_evOk hrun.1
  rw [lex]
  refine ⟨rfl, ?_, ?_, ?_⟩
  · refine ⟨(lexRun (initLexState ign) input).2.line, (lexRun (initLexState ign) input).2.column,
      ?_⟩
    have hsplit : mkOk (initLexState ign) .BeginFile ::
        ((lexRun (initLexState ign) input).1 ++
          (lexFinalize (lexRun (initLexState ign) input).2 ++
            [mkOk (lexRun (initLexState ign) input).2 .EndFile])) =
        (mkOk (initLexState ign) .BeginFile ::
          ((lexRun (initLexState ign) input).1 ++
            lexFinalize (lexRun (initLexState ign) input).2)) ++
          [mkOk (lexRun (initLexState ign) input).2 .EndFile] := by
      simp
    rw [hsplit, List.getLast?_concat]
    rfl
  · rw [List.countP_cons, List.countP_append, List.countP_append,
      countP_begin_zero hrun.2, countP_begin_zero hfin]
    simp [mkOk]
  · rw [List.countP_cons, List.countP_append, List.countP_append,
      countP_end_zero hrun.2, countP_end_zero hfin]
    simp [mkOk]

/-- C4: every lexeme `str` carried by an `IntValue` or `FloatValue`
emission of `lex` (terminated by a byte or by end of stream) is a full
match of the number regular expression
`-?(0|[1-9][0-9]*)(\.[0-9]+)?([eE]-?[0-9]+)?`. -/
theorem claim4_number_lexemes (input : List Nat) (ign : Bool) (e : LexEmit) (str : Text)
    (he : e ∈ lex input ign)
    (hres : e.res = .ok (.IntValue str) ∨ e.res = .ok (.FloatValue str)) :
    matchNumberStr str = true := by
  have hrun := lexRun_inv (i := input) (s := initLexState ign) (lexInv_of_none rfl)
  have hfin := lexFinalize_evOk hrun.1
  rw [lex] at he
  rcases List.mem_cons.mp he with h | h
  · subst h
    rcases hres with h | h <;> simp [mkOk] at h
  · rcases List.mem_append.mp h with h | h
    · exact (hrun.2 e h).2 str hres
    · rcases List.mem_append.mp h with h | h
      · exact (hfin e h).2 str hres
      · rw [List.mem_singleton] at h
        subst h
        rcases hres with h | h <;> simp [mkOk] at h

/-- Witness for C4 at the concrete input `-0e7`: the lexer emits
`FloatValue("-0e7")` and the theorem yields that the lexeme matches the
number regular expression. -/
theorem claim4_number_lexemes_witness : matchNumberStr "-0e7" = true :=
  claim4_number_lexemes [45, 48, 101, 55] false ⟨.ok (.FloatValue "-0e7"), 0, 4⟩ "-0e7"
    (by decide) (Or.inr rfl)

/-- C6: on input `[1.]` the lexer delivers, between the sentinels,
exactly `BeginArray`, an error `Missing decimals `1.``, then `EndArray`:
the step that sees the terminating `]` in the malformed number pushes it
back (`unget`) and returns to top-level mode, so the `]` is re-scanned
and lexing continues. -/
theorem claim6_missing_decimals :
    lex [91, 49, 46, 93] false =
      [⟨.ok .BeginFile, 0, 0⟩, ⟨.ok .BeginArray, 0, 1⟩,
       ⟨.error ⟨"Missing decimals `1.`", 0, 4⟩, 0, 4⟩,
       ⟨.ok .EndArray, 0, 5⟩, ⟨.ok .EndFile, 0, 5⟩] ∧
    (lexStep (lexRun (initLexState false) [91, 49, 46]).2 93).unget = true ∧
    (lexStep (lexRun (initLexState false) [91, 49, 46]).2 93).st.state = LexerState.None := by
  exact ⟨by decide, by decide, by decide⟩

/-- C7: whenever the number sub-state is `ZeroNumberStart` (reached by
`0` or `-0`), any byte other than `.`, `e`, `E` (and other than the
line feed, which skips the state machine) ends the number and emits
exactly `IntValue("0")` — the buffer, holding `-0` or `0`, is discarded;
the same constant is emitted at end of stream; in particular the whole
input `-0` lexes to `IntValue("0")`. -/
theorem claim7_minus_zero_int (ex : List Nat) (ei : Nat) (sss : LexerStringSubState)
    (buf : List Nat) (cp ui hi li co : Nat) (ig : Bool) (b : Nat)
    (h1 : ¬(b = 46)) (h2 : ¬(b = 101 ∨ b = 69)) (h3 : ¬(b = 10)) :
    lexStep ⟨.Number, ex, ei, .ZeroNumberStart, sss, buf, cp, ui, hi, li, co, ig⟩ b =
      ⟨[⟨.ok (.IntValue "0"), li, co + 1⟩],
        ⟨.None, ex, ei, .None, sss, [], cp, ui, hi, li, co + 1, ig⟩, true⟩ ∧
    lexFinalize ⟨.Number, ex, ei, .ZeroNumberStart, sss, buf, cp, ui, hi, li, co, ig⟩ =
      [⟨.ok (.IntValue "0"), li, co⟩] ∧
    lex [45, 48] false =
      [⟨.ok .BeginFile, 0, 0⟩, ⟨.ok (.IntValue "0"), 0, 2⟩, ⟨.ok .EndFile, 0, 2⟩] := by
  refine ⟨?_, rfl, by decide⟩
  rw [lexStep, if_neg h3]
  dsimp only
  rw [stepNumber]
  dsimp only
  rw [if_neg h1, if_neg h2]
  rfl

/-- Witness for C7 at the terminator `]` and a `-0` buffer. -/
theorem claim7_minus_zero_int_witness :
    lexStep ⟨.Number, [1, 2, 3, 4], 0, .ZeroNumberStart, .None, [45, 48], 0, 0, 0, 0, 2, false⟩
        93 =
      ⟨[⟨.ok (.IntValue "0"), 0, 3⟩],
        ⟨.None, [1, 2, 3, 4], 0, .None, .None, [], 0, 0, 0, 0, 3, false⟩, true⟩ ∧
    lexFinalize ⟨.Number, [1, 2, 3, 4], 0, .ZeroNumberStart, .None, [45, 48], 0, 0, 0, 0, 2,
        false⟩ = [⟨.ok (.IntValue "0"), 0, 2⟩] ∧
    lex [45, 48] false =
      [⟨.ok .BeginFile, 0, 0⟩, ⟨.ok (.IntValue "0"), 0, 2⟩, ⟨.ok .EndFile, 0, 2⟩] :=
  claim7_minus_zero_int [1, 2, 3, 4] 0 .None [45, 48] 0 0 0 0 2 false 93
    (by decide) (by decide) (by decide)

/-- C9: a keyword literal (`true`, `false`, `null`) that ends exactly at
end of stream never yields its token: the token is only emitted when a
following byte is read, and the finalisation of an `Expect` state emits
the error `Unexpected sub_state` instead, as the three concrete runs
show. -/
theorem claim9_keyword_at_eof (ex : List Nat) (ei : Nat) (t : LexerToken)
    (nss : LexerNumberSubState) (sss : LexerStringSubState) (buf : List Nat)
    (cp ui hi li co : Nat) (ig : Bool) :
    lexFinalize ⟨.Expect t, ex, ei, nss, sss, buf, cp, ui, hi, li, co, ig⟩ =
      [⟨.error ⟨"Unexpected sub_state", li, co⟩, li, co⟩] ∧
    lex [116, 114, 117, 101] false =
      [⟨.ok .BeginFile, 0, 0⟩, ⟨.error ⟨"Unexpected sub_state", 0, 4⟩, 0, 4⟩,
       ⟨.ok .EndFile, 0, 4⟩] ∧
    lex [102, 97, 108, 115, 101] false =
      [⟨.ok .BeginFile, 0, 0⟩, ⟨.error ⟨"Unexpected sub_state", 0, 5⟩, 0, 5⟩,
       ⟨.ok .EndFile, 0, 5⟩] ∧
    lex [110, 117, 108, 108] false =
      [⟨.ok .BeginFile, 0, 0⟩, ⟨.error ⟨"Unexpected sub_state", 0, 4⟩, 0, 4⟩,
       ⟨.ok .EndFile, 0, 4⟩] := by
  exact ⟨rfl, by decide, by decide, by decide⟩

/-- C5 counterexample: with `ignore_unicode_errs` NOT set, the input
`"\uD800A"` (high surrogate followed by an out-of-range low half)
makes the lexer emit the surrogate error AND insert U+FFFD into the
string buffer, so the claim that no replacement character is inserted
when the option is off fails. -/
theorem claim5_counterexample :
    lex [34, 92, 117, 68, 56, 48, 48, 92, 117, 48, 48, 52, 49, 34] false =
      [⟨.ok .BeginFile, 0, 0⟩,
       ⟨.error ⟨"Waiting for low surrogate, got `65`", 0, 13⟩, 0, 13⟩,
       ⟨.ok (.String (String.mk [Char.ofNat 0xFFFD])), 0, 14⟩,
       ⟨.ok .EndFile, 0, 14⟩] ∧
    (String.mk [Char.ofNat 0xFFFD]).data.contains (Char.ofNat 0xFFFD) = true := by
  exact ⟨by decide, by decide⟩

/-- C5 amended: while a low surrogate is awaited (`high != 0`), a
non-backslash byte or a non-`u` escape letter emits an error, pushes the
byte back and clears `high` without touching the buffer — no U+FFFD is
inserted, whatever `ignore_unicode_errs` is; a fourth hex digit putting
the code unit outside `0xDC00..=0xDFFF` emits an error and always
appends U+FFFD to the buffer, again whatever `ignore_unicode_errs`
is. -/
theorem claim5_amended :
    (∀ (ex : List Nat) (ei : Nat) (nss : LexerNumberSubState) (buf : List Nat)
      (cp ui hi li co : Nat) (ig : Bool) (b : Nat), ¬(hi = 0) → ¬(b = 92) → ¬(b = 10) →
      lexStep ⟨.String, ex, ei, nss, .None, buf, cp, ui, hi, li, co, ig⟩ b =
        ⟨[⟨.error ⟨"Waiting for low surrogate: needs backslash, got `" ++ byteChar b ++ "`",
            li, co + 1⟩, li, co + 1⟩],
          ⟨.String, ex, ei, nss, .None, buf, cp, ui, 0, li, co + 1, ig⟩, true⟩) ∧
    (∀ (ex : List Nat) (ei : Nat) (nss : LexerNumberSubState) (buf : List Nat)
      (cp ui hi li co : Nat) (ig : Bool) (b : Nat), ¬(hi = 0) → ¬(b = 117) → ¬(b = 10) →
      lexStep ⟨.String, ex, ei, nss, .Escape, buf, cp, ui, hi, li, co, ig⟩ b =
        ⟨[⟨.error ⟨"Waiting for low surrogate: needs \\u, got `\\" ++ byteChar b ++ "`",
            li, co + 1⟩, li, co + 1⟩],
          ⟨.String, ex, ei, nss, .Escape, buf, cp, ui, 0, li, co + 1, ig⟩, true⟩) ∧
    (∀ (ex : List Nat) (ei : Nat) (nss : LexerNumberSubState) (buf : List Nat)
      (cp hi li co : Nat) (ig : Bool) (b v : Nat), ¬(hi = 0) → ¬(b = 10) →
      parseHex ⟨.String, ex, ei, nss, .Unicode, buf, cp, 3, hi, li, co + 1, ig⟩ b = .ok v →
      ¬(0xDC00 ≤ cp * 16 + v ∧ cp * 16 + v ≤ 0xDFFF) →
      lexStep ⟨.String, ex, ei, nss, .Unicode, buf, cp, 3, hi, li, co, ig⟩ b =
        ⟨[⟨.error ⟨"Waiting for low surrogate, got `" ++ toString (cp * 16 + v) ++ "`",
            li, co + 1⟩, li, co + 1⟩],
          ⟨.String, ex, ei, nss, .None, buf ++ utf8EncodeNat 0xFFFD, 0, 0, 0, li, co + 1, ig⟩,
          false⟩) := by
  refine ⟨?_, ?_, ?_⟩
  · intro ex ei nss buf cp ui hi li co ig b hhi h92 h10
    rw [lexStep, if_neg h10]
    dsimp only
    rw [stepString, if_neg hhi]
    dsimp only
    rw [if_neg h92]
    rfl
  · intro ex ei nss buf cp ui hi li co ig b hhi h117 h10
    rw [lexStep, if_neg h10]
    dsimp only
    rw [stepString, if_neg hhi]
    dsimp only
    rw [if_neg h117]
    rfl
  · intro ex ei nss buf cp hi li co ig b v hhi h10 hv hrange
    rw [lexStep, if_neg h10]
    dsimp only
    rw [stepString, if_neg hhi]
    dsimp only
    rw [stepStringUnicodeHigh, hexStep, if_pos (Nat.le_refl 3), hv]
    dsimp only
    rw [unicodeHighEnd, if_pos rfl, if_neg hrange]
    rfl

/-- Witness for the three conjuncts of the amended C5, at concrete
states awaiting a low surrogate after `\uD800`. -/
theorem claim5_amended_witness :
    lexStep ⟨.String, [1, 2, 3, 4], 0, .None, .None, [97], 0, 0, 0xD800, 0, 7, false⟩ 120 =
      ⟨[⟨.error ⟨"Waiting for low surrogate: needs backslash, got `x`", 0, 8⟩, 0, 8⟩],
        ⟨.String, [1, 2, 3, 4], 0, .None, .None, [97], 0, 0, 0, 0, 8, false⟩, true⟩ ∧
    lexStep ⟨.String, [1, 2, 3, 4], 0, .None, .Escape, [97], 0, 0, 0xD800, 0, 8, false⟩ 110 =
      ⟨[⟨.error ⟨"Waiting for low surrogate: needs \\u, got `\\n`", 0, 9⟩, 0, 9⟩],
        ⟨.String, [1, 2, 3, 4], 0, .None, .Escape, [97], 0, 0, 0, 0, 9, false⟩, true⟩ ∧
    lexStep ⟨.String, [1, 2, 3, 4], 0, .None, .Unicode, [97], 4, 3, 0xD800, 0, 12, false⟩ 49 =
      ⟨[⟨.error ⟨"Waiting for low surrogate, got `65`", 0, 13⟩, 0, 13⟩],
        ⟨.String, [1, 2, 3, 4], 0, .None, .None, [97, 0xEF, 0xBF, 0xBD], 0, 0, 0, 0, 13,
          false⟩, false⟩ := by
  refine ⟨?_, ?_, ?_⟩
  · exact claim5_amended.1 [1, 2, 3, 4] 0 .None [97] 0 0 0xD800 0 7 false 120
      (by decide) (by decide) (by decide)
  · exact claim5_amended.2.1 [1, 2, 3, 4] 0 .None [97] 0 0 0xD800 0 8 false 110
      (by decide) (by decide) (by decide)
  · have h := claim5_amended.2.2 [1, 2, 3, 4] 0 .None [97] 4 0xD800 0 12 false 49 1
      (by decide) (by decide) (by decide) (by decide)
    exact h.trans (by decide)

/-- C2 counterexample: for the unterminated input `{"foo":1`, the
parser adapter receives `EndFile` in state `InObjectSep` (not in state
`None`), and the error it surfaces reads `Unexpected token
`Ok(EndFile)`` — not `Should be closed: <state>` as the claim states
for every non-final configuration. -/
theorem claim2_counterexample :
    parse [123, 34, 102, 111, 111, 34, 58, 49] false =
      [.ok .BeginFile, .ok .BeginObject, .ok (.Key "foo"), .ok (.IntValue "1"),
       .error ⟨"Unexpected token `Ok(EndFile)`", 0, 8⟩] ∧
    "Unexpected token `Ok(EndFile)`".data.take 17 ≠ "Should be closed:".data := by
  exact ⟨by decide, by decide⟩

/-- C2 amended: `Should be closed: <state>` is surfaced exactly when
`EndFile` arrives in state `None` with a non-empty stack; in every
other non-final state, `EndFile` yields an error too, but its message is
`Unexpected state` (in `Undefined`) or `Unexpected token `Ok(EndFile)``
(in the six container states); for `{"foo":1` the consumer receives
`BeginFile, BeginObject, Key("foo"), IntValue("1")` and then the
`Unexpected token `Ok(EndFile)`` error, whose message mentions the
unexpected `EndFile`. -/
theorem claim2_amended :
    (∀ (t' : ParserState) (rest : List ParserState) (l c : Nat),
      pconsume ⟨.None, t' :: rest⟩ (.ok .EndFile) l c =
        ⟨[.error ⟨"Should be closed: " ++ psDebug t', l, c⟩], ⟨.None, t' :: rest⟩,
          false, false⟩) ∧
    (∀ (stk : List ParserState) (l c : Nat),
      pconsume ⟨.Undefined, stk⟩ (.ok .EndFile) l c =
        ⟨[.error ⟨"Unexpected state", l, c⟩], ⟨.Undefined, stk⟩, false, false⟩) ∧
    (∀ (stk : List ParserState) (l c : Nat),
      pconsume ⟨.InObject, stk⟩ (.ok .EndFile) l c =
        ⟨[.error ⟨"Unexpected token `Ok(EndFile)`", l, c⟩], ⟨.InObject, stk⟩, false, false⟩) ∧
    (∀ (stk : List ParserState) (l c : Nat),
      pconsume ⟨.InObjectMember, stk⟩ (.ok .EndFile) l c =
        ⟨[.error ⟨"Unexpected token `Ok(EndFile)`", l, c⟩], ⟨.InObjectMember, stk⟩,
          false, false⟩) ∧
    (∀ (stk : List ParserState) (l c : Nat),
      pconsume ⟨.InObjectMemberValue, stk⟩ (.ok .EndFile) l c =
        ⟨[.error ⟨"Unexpected token `Ok(EndFile)`", l, c⟩], ⟨.InObjectMemberValue, stk⟩,
          false, false⟩) ∧
    (∀ (stk : List ParserState) (l c : Nat),
      pconsume ⟨.InObjectSep, stk⟩ (.ok .EndFile) l c =
        ⟨[.error ⟨"Unexpected token `Ok(EndFile)`", l, c⟩], ⟨.InObjectSep, stk⟩,
          false, false⟩) ∧
    (∀ (stk : List ParserState) (l c : Nat),
      pconsume ⟨.InArray, stk⟩ (.ok .EndFile) l c =
        ⟨[.error ⟨"Unexpected token `Ok(EndFile)`", l, c⟩], ⟨.InArray, stk⟩, false, false⟩) ∧
    (∀ (stk : List ParserState) (l c : Nat),
      pconsume ⟨.InArraySep, stk⟩ (.ok .EndFile) l c =
        ⟨[.error ⟨"Unexpected token `Ok(EndFile)`", l, c⟩], ⟨.InArraySep, stk⟩,
          false, false⟩) ∧
    (parse [123, 34, 102, 111, 111, 34, 58, 49] false).getLast? =
      some (.error ⟨"Unexpected token `Ok(EndFile)`", 0, 8⟩) := by
  refine ⟨fun t' rest l c => rfl, fun stk l c => rfl, fun stk l c => rfl, fun stk l c => rfl,
    fun stk l c => rfl, fun stk l c => rfl, fun stk l c => rfl, fun stk l c => rfl, by decide⟩

/-- C8: `escape_value` returns strings free of `< > & " '` unchanged;
a string containing one of them is wrapped in a CDATA section, with
every `]]>` occurrence split as `]]]]><![CDATA[>` when present; and the
whole typed-mode pipeline on `{"x":"]]>"}` writes the element
`<x type="string"><![CDATA[]]]]><![CDATA[>]]></x>` inside `<root>`. -/
theorem claim8_escape_value :
    (∀ s : Text, s.data.any cdataSpecial = false → escape_value s = s) ∧
    (∀ s : Text, s.data.any cdataSpecial = true → hasCdataEnd s.data = true →
      escape_value s = "<![CDATA[" ++ String.mk (replaceCdataEnd s.data) ++ "]]>") ∧
    (∀ s : Text, s.data.any cdataSpecial = true → hasCdataEnd s.data = false →
      escape_value s = "<![CDATA[" ++ s ++ "]]>") ∧
    json2xmlTyped [123, 34, 120, 34, 58, 34, 93, 93, 62, 34, 125] =
      "<?xml version=\"1.0\" encoding=\"utf-8\"?>\n<root><x type=\"string\"><![CDATA[]]]]><![CDATA[>]]></x></root>" := by
  refine ⟨?_, ?_, ?_, by decide⟩
  · intro s h
    rw [escape_value, if_neg (by simp [h])]
  · intro s h1 h2
    rw [escape_value, if_pos h1, if_pos h2]
  · intro s h1 h2
    rw [escape_value, if_pos h1, if_neg (by simp [h2])]

/-- Witness for C8 on the strings `abc` (returned unchanged), `]]>`
(wrapped and split), and `&` (wrapped only). -/
theorem claim8_escape_value_witness :
    escape_value "abc" = "abc" ∧
    escape_value "]]>" = "<![CDATA[" ++ String.mk (replaceCdataEnd ("]]>").data) ++ "]]>" ∧
    escape_value "&" = "<![CDATA[" ++ "&" ++ "]]>" :=
  ⟨claim8_escape_value.1 "abc" (by decide),
   claim8_escape_value.2.1 "]]>" (by decide) (by decide),
   claim8_escape_value.2.2.1 "&" (by decide) (by decide)⟩

theorem get_clears_pushback (bs : ByteSource) :
    (ByteSource.get bs).2.unget_byte = bs.unget_byte ∨
    (ByteSource.get bs).2.unget_byte = none := by
  rcases hu : bs.unget_byte with _ | b
  · left
    simp only [ByteSource.get, hu]
    by_cases hl : bs.i ≥ bs.limit
    · rw [if_pos hl]
      rcases bs.chunks with _ | ⟨c, rest⟩
      · exact hu ▸ rfl
      · rcases c with _ | ⟨x, c'⟩
        · exact hu ▸ rfl
        · exact hu ▸ rfl
    · rw [if_neg hl]
  · right
    simp only [ByteSource.get, hu]

theorem bsReach_inv {bs : ByteSource} (h : BSReach bs) : bsInv bs := by
  induction h with
  | init chunks =>
    intro b hb
    simp [ByteSource.new] at hb
  | get hr ih =>
    rename_i bs0
    intro b hb
    rcases hu : bs0.unget_byte with _ | b0
    · rcases get_clears_pushback bs0 with hg | hg
      · rw [hg, hu] at hb
        cases hb
      · rw [hg] at hb
        cases hb
    · -- pushback path: the successor differs from bs0 only in the cell
      simp only [ByteSource.get, hu] at hb
      cases hb
  | unget hr ih =>
    rename_i bs0
    intro b hb
    simp only [ByteSource.unget] at hb
    rw [Option.some_inj] at hb
    simpa [ByteSource.unget] using hb

/-- C3: after any successful `get` on a reachable `ByteSource` state
that returned byte `b` — including a `get` that refilled the buffer —
calling `unget` and then `get` again returns the same byte `b`. -/
theorem claim3_unget_reget (bs : ByteSource) (b : Nat) (bs' : ByteSource)
    (hr : BSReach bs) (hg : ByteSource.get bs = (some b, bs')) :
    (ByteSource.get (ByteSource.unget bs')).1 = some b := by
  have hinv := bsReach_inv hr
  rcases hu : bs.unget_byte with _ | b0
  · by_cases hl : bs.i ≥ bs.limit
    · rcases hc : bs.chunks with _ | ⟨c, rest⟩
      · simp [ByteSource.get, hu, hl, hc] at hg
      · rcases c with _ | ⟨x, c'⟩
        · simp [ByteSource.get, hu, hl, hc] at hg
        · simp only [ByteSource.get, hu, hl, if_pos, hc, if_true] at hg
          rw [Prod.mk.injEq] at hg
          obtain ⟨h1, h2⟩ := hg
          rw [Option.some_inj] at h1
          subst h1
          subst h2
          simp [ByteSource.unget, ByteSource.get]
    · simp only [ByteSource.get, hu, if_neg hl] at hg
      rw [Prod.mk.injEq] at hg
      obtain ⟨h1, h2⟩ := hg
      rw [Option.some_inj] at h1
      subst h2
      simp only [ByteSource.unget, ByteSource.get, Nat.add_sub_cancel]
      exact congrArg some h1
  · simp only [ByteSource.get, hu] at hg
    rw [Prod.mk.injEq] at hg
    obtain ⟨h1, h2⟩ := hg
    rw [Option.some_inj] at h1
    subst h2
    have hb := hinv b0 hu
    rw [h1] at hb
    simp only [ByteSource.unget, ByteSource.get]
    exact congrArg some hb

/-- Witness for C3: a fresh source over one chunk `[5, 7]`; the first
`get` returns `5`, and after `unget` the next `get` returns `5`
again. -/
theorem claim3_unget_reget_witness :
    (ByteSource.get (ByteSource.unget (ByteSource.get (ByteSource.new [[5, 7]])).2)).1 =
      some 5 :=
  claim3_unget_reget (ByteSource.new [[5, 7]]) 5 (ByteSource.get (ByteSource.new [[5, 7]])).2
    (BSReach.init _) (by decide)

theorem goodStack_ne_nil {stk : List ParserState} (h : goodStack stk = true) : stk ≠ [] := by
  intro he
  subst he
  simp [goodStack] at h

theorem goodStack_cons_obj {stk : List ParserState} (h : goodStack stk = true) :
    goodStack (.InObjectSep :: stk) = true := by
  rcases stk with _ | ⟨a, t⟩
  · simp [goodStack] at h
  · simp [goodStack, h]

theorem goodStack_cons_arr {stk : List ParserState} (h : goodStack stk = true) :
    goodStack (.InArraySep :: stk) = true := by
  rcases stk with _ | ⟨a, t⟩
  · simp [goodStack] at h
  · simp [goodStack, h]

theorem goodStack_pop {x : ParserState} {rest : List ParserState}
    (h : goodStack (x :: rest) = true) :
    (x = .None ∧ rest = []) ∨
    ((x = .InObjectSep ∨ x = .InArraySep) ∧ goodStack rest = true) := by
  rcases rest with _ | ⟨a, t⟩
  · left
    exact ⟨by simpa [goodStack] using h, rfl⟩
  · right
    have h2 : ((x == ParserState.InObjectSep || x == ParserState.InArraySep) &&
        goodStack (a :: t)) = true := h
    rw [Bool.and_eq_true, Bool.or_eq_true, beq_iff_eq, beq_iff_eq] at h2
    exact ⟨h2.1, h2.2⟩

theorem pconsume_inv {ps : ParserSt} {tok : Except JSONLexError LexerToken} {l c : Nat}
    (h : pInv ps) :
    pInv (pconsume ps tok l c).st ∧ (pconsume ps tok l c).panic = false := by
  rcases ps with ⟨st, stk⟩
  rcases tok with e | t
  · exact ⟨h, rfl⟩
  · cases st <;> cases t <;>
      first
        | exact ⟨h, rfl⟩
        | (have h' : stk = [] := h
           subst h'
           exact ⟨rfl, rfl⟩)
        | exact ⟨goodStack_cons_obj h, rfl⟩
        | exact ⟨goodStack_cons_arr h, rfl⟩
        | (rcases stk with _ | ⟨x, rest⟩
           · exact absurd h (by simp [pInv, goodStack])
           · rcases goodStack_pop h with ⟨hx, hr⟩ | ⟨hx, hg⟩
             · subst hx
               subst hr
               exact ⟨rfl, rfl⟩
             · rcases hx with hx | hx <;> subst hx
               · exact ⟨hg, rfl⟩
               · exact ⟨hg, rfl⟩)

/-- C10: in every reachable configuration of `JSONLexerToParser`, the
state stack is empty in states `Undefined` and `None` and non-empty in
the six container states; consequently every `states.pop().unwrap()`
succeeds (`consume` never panics, on any token), and the `Should be
closed` branch — state `None` with a non-empty stack — is unreachable. -/
theorem claim10_parser_stack (ps : ParserSt) (tok : Except JSONLexError LexerToken)
    (l c : Nat) (h : PReach ps) :
    pInv ps ∧
    (ps.state = .None → ps.states = []) ∧
    (ps.state ≠ .Undefined → ps.state ≠ .None → ps.states ≠ []) ∧
    (pconsume ps tok l c).panic = false := by
  have hinv : pInv ps := by
    induction h with
    | init => rfl
    | step tok' l' c' hr ih => exact (pconsume_inv ih).1
  refine ⟨hinv, ?_, ?_, (pconsume_inv hinv).2⟩
  · intro hn
    rcases ps with ⟨st, stk⟩
    dsimp only at hn
    subst hn
    exact hinv
  · intro h1 h2
    rcases ps with ⟨st, stk⟩
    dsimp only at h1 h2 ⊢
    cases st
    · exact absurd rfl h1
    · exact absurd rfl h2
    all_goals exact goodStack_ne_nil hinv

/-- Witness for C10 at the initial configuration and a `BeginFile`
token. -/
theorem claim10_parser_stack_witness :
    pInv initParserSt ∧
    (initParserSt.state = .None → initParserSt.states = []) ∧
    (initParserSt.state ≠ .Undefined → initParserSt.state ≠ .None →
      initParserSt.states ≠ []) ∧
    (pconsume initParserSt (.ok .BeginFile) 0 0).panic = false :=
  claim10_parser_stack initParserSt (.ok .BeginFile) 0 0 PReach.init

/-! ## Driver faithfulness: an un-getting step is never followed by a
second unget on the re-delivered byte -/

theorem stepNone_unget {s : LexState} {b : Nat} : (stepNone s b).unget = false := by
  rw [stepNone]
  by_cases c1 : b = 32 ∨ b = 9 ∨ b = 13
  · rw [if_pos c1]
  rw [if_neg c1]
  by_cases c2 : b = 102
  · rw [if_pos c2]
  rw [if_neg c2]
  by_cases c3 : b = 116
  · rw [if_pos c3]
  rw [if_neg c3]
  by_cases c4 : b = 110
  · rw [if_pos c4]
  rw [if_neg c4]
  by_cases c5 : b = 123
  · rw [if_pos c5]
  rw [if_neg c5]
  by_cases c6 : b = 125
  · rw [if_pos c6]
  rw [if_neg c6]
  by_cases c7 : b = 91
  · rw [if_pos c7]
  rw [if_neg c7]
  by_cases c8 : b = 93
  · rw [if_pos c8]
  rw [if_neg c8]
  by_cases c9 : b = 58
  · rw [if_pos c9]
  rw [if_neg c9]
  by_cases c10 : b = 44
  · rw [if_pos c10]
  rw [if_neg c10]
  by_cases c11 : b = 45
  · rw [if_pos c11]
  rw [if_neg c11]
  by_cases c12 : b = 48
  · rw [if_pos c12]
  rw [if_neg c12]
  by_cases c13 : b = 34
  · rw [if_pos c13]
  rw [if_neg c13]
  by_cases c14 : 49 ≤ b ∧ b ≤ 57
  · rw [if_pos c14]
  rw [if_neg c14]

theorem stepExpect_unget {s : LexState} {t : LexerToken} {b : Nat}
    (h : (stepExpect s t b).unget = true) : (stepExpect s t b).st.state = .None := by
  rw [stepExpect] at h ⊢
  split_ifs at h ⊢ <;> first | rfl | cases h

theorem stepNumber_unget {s : LexState} {b : Nat}
    (h : (stepNumber s b).unget = true) : (stepNumber s b).st.state = .None := by
  obtain ⟨st, ex, ei, nss, sss, buf, cp, ui, hi, li, co, ig⟩ := s
  cases nss <;> dsimp only [stepNumber, endOfNumber] at h ⊢ <;>
    first
      | cases h
      | (split_ifs at h ⊢ <;> first | rfl | cases h)

theorem unicodeEnd_unget {s1 : LexState} {evs : List LexEmit} :
    (unicodeEnd s1 evs).unget = false := by
  rw [unicodeEnd]
  split_ifs <;> rfl

theorem unicodeHighEnd_unget {s1 : LexState} {evs : List LexEmit} :
    (unicodeHighEnd s1 evs).unget = false := by
  rw [unicodeHighEnd]
  split_ifs <;> rfl

theorem stepString0_unget {s : LexState} {b : Nat} (hh : s.high = 0) :
    (stepString s b).unget = false := by
  obtain ⟨st, ex, ei, nss, sss, buf, cp, ui, hi, li, co, ig⟩ := s
  dsimp only at hh
  subst hh
  cases sss <;> rw [stepString, if_pos rfl] <;> dsimp only
  · split_ifs <;> rfl
  · split_ifs <;> rfl
  · rw [stepStringUnicode]
    exact unicodeEnd_unget

theorem stepString_unget {s : LexState} {b : Nat}
    (h : (stepString s b).unget = true) :
    (stepString s b).st.state = s.state ∧ (stepString s b).st.high = 0 := by
  obtain ⟨st, ex, ei, nss, sss, buf, cp, ui, hi, li, co, ig⟩ := s
  by_cases hh : hi = 0
  · exact absurd h (by rw [stepString0_unget hh]; simp)
  · rw [stepString, if_neg hh] at h ⊢
    cases sss <;> dsimp only at h ⊢
    · split_ifs at h ⊢ <;> first | exact ⟨rfl, rfl⟩ | cases h
    · split_ifs at h ⊢ <;> first | exact ⟨rfl, rfl⟩ | cases h
    · rw [stepStringUnicodeHigh, unicodeHighEnd_unget] at h
      cases h

theorem lexStep_from_none {s : LexState} {b : Nat} (hst : s.state = .None) :
    (lexStep s b).unget = false := by
  rw [lexStep]
  by_cases hb : b = 10
  · rw [if_pos hb]
  · rw [if_neg hb]
    dsimp only
    rcases hst2 : s.state with _ | t | _ | _
    · exact stepNone_unget
    · rw [hst2] at hst
      cases hst
    · rw [hst2] at hst
      cases hst
    · rw [hst2] at hst
      cases hst

theorem lexStep_from_string0 {s : LexState} {b : Nat} (hst : s.state = .String)
    (hh : s.high = 0) : (lexStep s b).unget = false := by
  rw [lexStep]
  by_cases hb : b = 10
  · rw [if_pos hb]
  · rw [if_neg hb]
    dsimp only
    rcases hst2 : s.state with _ | t | _ | _
    · rw [hst2] at hst
      cases hst
    · rw [hst2] at hst
      cases hst
    · rw [hst2] at hst
      cases hst
    · exact stepString0_unget hh

/-- An iteration that pushed its byte back leaves the lexer in a state
(`None` at top level, or inside a string with `high == 0`) from which no
iteration pushes back, so re-running the step once on the re-delivered
byte is exactly what the source loop does. -/
theorem lexStep_unget_then_no_unget (s : LexState) (b b' : Nat)
    (h : (lexStep s b).unget = true) :
    (lexStep (lexStep s b).st b').unget = false := by
  have key : (lexStep s b).st.state = .None ∨
      ((lexStep s b).st.state = .String ∧ (lexStep s b).st.high = 0) := by
    obtain ⟨st, ex, ei, nss, sss, buf, cp, ui, hi, li, co, ig⟩ := s
    rw [lexStep] at h ⊢
    by_cases hb : b = 10
    · rw [if_pos hb] at h
      cases h
    · rw [if_neg hb] at h ⊢
      cases st <;> dsimp only at h ⊢
      · rw [stepNone_unget] at h
        cases h
      · exact Or.inl (stepExpect_unget h)
      · exact Or.inl (stepNumber_unget h)
      · exact Or.inr (stepString_unget h)
  rcases key with hk | ⟨hk1, hk2⟩
  · exact lexStep_from_none hk
  · exact lexStep_from_string0 hk1 hk2

end RJson
